import Mathlib

/-!
# Input-event accumulators and checkerboard painter of `wayland_input_exam.c`

A shallow embedding of the pointer accumulator, the touch accumulator and the
pixel classification of `draw_frame`, followed by the properties established
about them.

Conventions of the embedding:

* `uint32_t` values are `Nat`, `int32_t` / `wl_fixed_t` values are `Int`.  The
  handlers only store their arguments and OR constant bits into a mask, so no
  arithmetic can leave the 32-bit range and no reduction modulo `2^32` occurs.
* A C array of `n` slots is a function `Fin n → slot`.  A store or a read
  through an index outside the array has no defined meaning in C; a handler
  that reaches one returns `Except.error` carrying the accumulator as it stood
  at that moment.
* The C `float` and `double` values are rational numbers, and each operation
  rounds to nearest, ties to even, into its format.
* Text written to `stderr` is modelled as a structured log value.
-/

namespace WaylandInput

/-! ## Pointer accumulator: data model (source lines 68-91) -/

def POINTER_EVENT_ENTER : Nat := 1 <<< 0
def POINTER_EVENT_LEAVE : Nat := 1 <<< 1
def POINTER_EVENT_MOTION : Nat := 1 <<< 2
def POINTER_EVENT_BUTTON : Nat := 1 <<< 3
def POINTER_EVENT_AXIS : Nat := 1 <<< 4
def POINTER_EVENT_AXIS_SOURCE : Nat := 1 <<< 5
def POINTER_EVENT_AXIS_STOP : Nat := 1 <<< 6
def POINTER_EVENT_AXIS_DISCRETE : Nat := 1 <<< 7

/-- One element of the anonymous `axes[2]` array of `struct pointer_event`. -/
structure axis_slot where
  valid : Bool
  value : Int
  discrete : Int
deriving DecidableEq, Repr

/-- The accumulator `struct pointer_event`. -/
structure pointer_event where
  event_mask : Nat
  surface_x : Int
  surface_y : Int
  button : Nat
  state : Nat
  time : Nat
  serial : Nat
  axes : Fin 2 → axis_slot
  axis_source : Nat

/-- The all-zero bit pattern of an axis slot. -/
def axis_slot_zero : axis_slot := { valid := false, value := 0, discrete := 0 }

/-- The accumulator after `memset(event, 0, sizeof(*event))`, which is also its
value in the zero-initialised `client_state` of `main`. -/
def pointer_event_zero : pointer_event :=
  { event_mask := 0, surface_x := 0, surface_y := 0, button := 0, state := 0,
    time := 0, serial := 0, axes := fun _ => axis_slot_zero, axis_source := 0 }

/-- `BTN_LEFT` of `linux/input.h`. -/
def BTN_LEFT : Nat := 0x110

def WL_POINTER_BUTTON_STATE_RELEASED : Nat := 0
def WL_POINTER_BUTTON_STATE_PRESSED : Nat := 1

/-! ## Pointer sub-event handlers (source lines 621-721) -/

/-- A store `client_state->pointer_event.axes[axis].field = ...`: the slot is
rewritten by `f` when `axis` indexes the two-slot array; otherwise the store is
outside the array and the handler stops with the accumulator as it stands. -/
def axes_store (s : pointer_event) (axis : Nat) (f : axis_slot → axis_slot) :
    Except pointer_event pointer_event :=
  if h : axis < 2 then
    .ok { s with axes := Function.update s.axes ⟨axis, h⟩ (f (s.axes ⟨axis, h⟩)) }
  else
    .error s

def wl_pointer_axis (s : pointer_event) (time axis : Nat) (value : Int) :
    Except pointer_event pointer_event := do
  let s1 := { s with event_mask := s.event_mask ||| POINTER_EVENT_AXIS }
  let s2 := { s1 with time := time }
  let s3 ← axes_store s2 axis (fun a => { a with valid := true })
  axes_store s3 axis (fun a => { a with value := value })

def wl_pointer_axis_source (s : pointer_event) (axis_source : Nat) : pointer_event :=
  let s1 := { s with event_mask := s.event_mask ||| POINTER_EVENT_AXIS_SOURCE }
  { s1 with axis_source := axis_source }

def wl_pointer_axis_stop (s : pointer_event) (time axis : Nat) :
    Except pointer_event pointer_event := do
  let s1 := { s with time := time }
  let s2 := { s1 with event_mask := s1.event_mask ||| POINTER_EVENT_AXIS_STOP }
  axes_store s2 axis (fun a => { a with valid := true })

def wl_pointer_axis_discrete (s : pointer_event) (axis : Nat) (discrete : Int) :
    Except pointer_event pointer_event := do
  let s1 := { s with event_mask := s.event_mask ||| POINTER_EVENT_AXIS_DISCRETE }
  let s2 ← axes_store s1 axis (fun a => { a with valid := true })
  axes_store s2 axis (fun a => { a with discrete := discrete })

def wl_pointer_motion (s : pointer_event) (time : Nat) (surface_x surface_y : Int) :
    pointer_event :=
  let s1 := { s with event_mask := s.event_mask ||| POINTER_EVENT_MOTION }
  let s2 := { s1 with time := time }
  { s2 with surface_x := surface_x, surface_y := surface_y }

/-- The second component is the serial of the `xdg_toplevel_move` request the
handler sends when the left button is pressed, if it sends one. -/
def wl_pointer_button (s : pointer_event) (serial time button state : Nat) :
    pointer_event × Option Nat :=
  let s1 := { s with event_mask := s.event_mask ||| POINTER_EVENT_BUTTON }
  let s2 := { s1 with time := time }
  let s3 := { s2 with serial := serial }
  let s4 := { s3 with button := button, state := state }
  (s4, if button = BTN_LEFT ∧ state = WL_POINTER_BUTTON_STATE_PRESSED then some serial else none)

def wl_pointer_enter (s : pointer_event) (serial : Nat) (surface_x surface_y : Int) :
    pointer_event :=
  let s1 := { s with event_mask := s.event_mask ||| POINTER_EVENT_ENTER }
  let s2 := { s1 with serial := serial }
  { s2 with surface_x := surface_x, surface_y := surface_y }

def wl_pointer_leave (s : pointer_event) (serial : Nat) : pointer_event :=
  let s1 := { s with serial := serial }
  { s1 with event_mask := s1.event_mask ||| POINTER_EVENT_LEAVE }

/-! ## Pointer frame flush (source lines 548-618) -/

/-- What `wl_pointer_frame` prints for one valid axis slot. -/
structure axis_log where
  axis : Fin 2
  value : Option Int
  discrete : Option Int
  via : Option String
  stopped : Bool
deriving DecidableEq, Repr

/-- What `wl_pointer_frame` prints for one frame; fixed-point values are kept
raw (the text shows them divided by 256). -/
structure pointer_frame_log where
  time : Nat
  entered : Option (Int × Int)
  leave : Bool
  motion : Option (Int × Int)
  button : Option (Nat × String)
  axes : List axis_log
deriving DecidableEq, Repr

/-- The read `axis_source[event->axis_source]` from the local four-entry table
of `wl_pointer_frame`.  The result is `none` when the index is outside the
table: that read has no defined meaning in C, and the caller stops there. -/
def axis_source_name (axis_source : Nat) : Option String :=
  match axis_source with
  | 0 => some "wheel"
  | 1 => some "finger"
  | 2 => some "continuous"
  | 3 => some "wheel tilt"
  | _ => none

/-- The test `event->event_mask & flag` of the C conditionals. -/
def mask_has (event_mask flag : Nat) : Bool := (event_mask &&& flag) != 0

/-- The loop `for (i = 0; i < 2; ++i)` of `wl_pointer_frame` over the remaining
indices, carrying the axis lines printed so far.  When an iteration reaches the
read of `axis_source[event->axis_source]` with an index outside the table, the
handler stops with `Except.error` carrying the accumulator as it stands, which
is the accumulator before the call: the `memset` has not been reached. -/
def wl_pointer_frame_loop (event : pointer_event) :
    List (Fin 2) → List axis_log → Except pointer_event (List axis_log)
  | [], log => .ok log
  | i :: rest, log =>
    if (event.axes i).valid = false then
      wl_pointer_frame_loop event rest log
    else
      let value :=
        if mask_has event.event_mask POINTER_EVENT_AXIS then
          some (event.axes i).value else none
      let discrete :=
        if mask_has event.event_mask POINTER_EVENT_AXIS_DISCRETE then
          some (event.axes i).discrete else none
      let stopped := mask_has event.event_mask POINTER_EVENT_AXIS_STOP
      if mask_has event.event_mask POINTER_EVENT_AXIS_SOURCE then
        match axis_source_name event.axis_source with
        | none => .error event
        | some name =>
          wl_pointer_frame_loop event rest
            (log ++ [{ axis := i, value := value, discrete := discrete, via := some name,
                       stopped := stopped }])
      else
        wl_pointer_frame_loop event rest
          (log ++ [{ axis := i, value := value, discrete := discrete, via := none,
                     stopped := stopped }])

/-- The result is the printed frame and the accumulator after the final
`memset`, or `Except.error` with the untouched accumulator when the handler
reads outside its `axis_source` table before it gets there. -/
def wl_pointer_frame (event : pointer_event) :
    Except pointer_event (pointer_frame_log × pointer_event) :=
  let axis_events := POINTER_EVENT_AXIS ||| POINTER_EVENT_AXIS_SOURCE
    ||| POINTER_EVENT_AXIS_STOP ||| POINTER_EVENT_AXIS_DISCRETE
  let entered :=
    if mask_has event.event_mask POINTER_EVENT_ENTER then
      some (event.surface_x, event.surface_y) else none
  let leave := mask_has event.event_mask POINTER_EVENT_LEAVE
  let motion :=
    if mask_has event.event_mask POINTER_EVENT_MOTION then
      some (event.surface_x, event.surface_y) else none
  let button :=
    if mask_has event.event_mask POINTER_EVENT_BUTTON then
      some (event.button,
        if event.state = WL_POINTER_BUTTON_STATE_RELEASED then "released" else "pressed")
    else none
  let axes :=
    if mask_has event.event_mask axis_events then
      wl_pointer_frame_loop event (List.finRange 2) []
    else
      .ok []
  match axes with
  | .error f => .error f
  | .ok lines =>
    .ok ({ time := event.time, entered := entered, leave := leave, motion := motion,
           button := button, axes := lines }, pointer_event_zero)

/-! ## Sequences of pointer sub-events -/

/-- A pointer sub-event as delivered by the compositor, frame boundary excluded. -/
inductive pointer_sub where
  | enter (serial : Nat) (surface_x surface_y : Int)
  | leave (serial : Nat)
  | motion (time : Nat) (surface_x surface_y : Int)
  | button (serial time button state : Nat)
  | axis (time axis : Nat) (value : Int)
  | axis_source (axis_source : Nat)
  | axis_stop (time axis : Nat)
  | axis_discrete (axis : Nat) (discrete : Int)
deriving DecidableEq, Repr

/-- Routing of a sub-event to its handler, as `wl_pointer_listener` does. -/
def pointer_apply (s : pointer_event) : pointer_sub → Except pointer_event pointer_event
  | .enter serial x y => .ok (wl_pointer_enter s serial x y)
  | .leave serial => .ok (wl_pointer_leave s serial)
  | .motion time x y => .ok (wl_pointer_motion s time x y)
  | .button serial time button state => .ok (wl_pointer_button s serial time button state).1
  | .axis time axis value => wl_pointer_axis s time axis value
  | .axis_source src => .ok (wl_pointer_axis_source s src)
  | .axis_stop time axis => wl_pointer_axis_stop s time axis
  | .axis_discrete axis discrete => wl_pointer_axis_discrete s axis discrete

/-- The handlers run one after another, each to completion, in arrival order. -/
def pointer_run (s : pointer_event) : List pointer_sub → Except pointer_event pointer_event
  | [] => .ok s
  | e :: es =>
    match pointer_apply s e with
    | .ok s1 => pointer_run s1 es
    | .error f => .error f

/-! ### Reading of "OR of the flags" and "last write wins" -/

/-- The dirty-flag bit of a sub-event. -/
def pointer_sub.flag : pointer_sub → Nat
  | .enter .. => POINTER_EVENT_ENTER
  | .leave .. => POINTER_EVENT_LEAVE
  | .motion .. => POINTER_EVENT_MOTION
  | .button .. => POINTER_EVENT_BUTTON
  | .axis .. => POINTER_EVENT_AXIS
  | .axis_source .. => POINTER_EVENT_AXIS_SOURCE
  | .axis_stop .. => POINTER_EVENT_AXIS_STOP
  | .axis_discrete .. => POINTER_EVENT_AXIS_DISCRETE

/-- The axis index carried by a sub-event, if it carries one. -/
def pointer_sub.axis_index : pointer_sub → Option Nat
  | .axis _ ax _ => some ax
  | .axis_stop _ ax => some ax
  | .axis_discrete ax _ => some ax
  | _ => none

/-- The axis index of the sub-event, if any, is 0 or 1. -/
def pointer_sub.axis_in_range (e : pointer_sub) : Prop :=
  ∀ a, e.axis_index = some a → a < 2

/-- The value carried by the last element of `evs` that writes the field
described by `w`, or `init` when no element writes it. -/
def last_write {α : Type} (w : pointer_sub → Option α) (evs : List pointer_sub) (init : α) : α :=
  (evs.reverse.findSome? w).getD init

def writes_position : pointer_sub → Option (Int × Int)
  | .enter _ x y => some (x, y)
  | .motion _ x y => some (x, y)
  | _ => none

def writes_button : pointer_sub → Option (Nat × Nat)
  | .button _ _ button state => some (button, state)
  | _ => none

def writes_serial : pointer_sub → Option Nat
  | .enter serial _ _ => some serial
  | .leave serial => some serial
  | .button serial _ _ _ => some serial
  | _ => none

def writes_time : pointer_sub → Option Nat
  | .motion time _ _ => some time
  | .button _ time _ _ => some time
  | .axis time _ _ => some time
  | .axis_stop time _ => some time
  | _ => none

def writes_axis_source : pointer_sub → Option Nat
  | .axis_source src => some src
  | _ => none

def writes_axis_value (i : Fin 2) : pointer_sub → Option Int
  | .axis _ axis value => if axis = i.val then some value else none
  | _ => none

def writes_axis_discrete (i : Fin 2) : pointer_sub → Option Int
  | .axis_discrete axis discrete => if axis = i.val then some discrete else none
  | _ => none

/-! ## Touch accumulator: data model (source lines 93-116) -/

def TOUCH_EVENT_DOWN : Nat := 1 <<< 0
def TOUCH_EVENT_UP : Nat := 1 <<< 1
def TOUCH_EVENT_MOTION : Nat := 1 <<< 2
def TOUCH_EVENT_CANCEL : Nat := 1 <<< 3
def TOUCH_EVENT_SHAPE : Nat := 1 <<< 4
def TOUCH_EVENT_ORIENTATION : Nat := 1 <<< 5

/-- One contact slot, `struct touch_point`. -/
structure touch_point where
  valid : Bool
  id : Int
  event_mask : Nat
  surface_x : Int
  surface_y : Int
  major : Int
  minor : Int
  orientation : Int
deriving DecidableEq, Repr

/-- The accumulator `struct touch_event` with its table `points[10]`. -/
structure touch_event where
  event_mask : Nat
  time : Nat
  serial : Nat
  points : Fin 10 → touch_point

def touch_point_zero : touch_point :=
  { valid := false, id := 0, event_mask := 0, surface_x := 0, surface_y := 0,
    major := 0, minor := 0, orientation := 0 }

/-- The touch accumulator of the zero-initialised `client_state` of `main`. -/
def touch_event_zero : touch_event :=
  { event_mask := 0, time := 0, serial := 0, points := fun _ => touch_point_zero }

/-- The value stored by `point->surface_x = wl_fixed_to_double(x)`:
`wl_fixed_to_double` of `wayland-util.h` is `x / 256.0`, exact in a `double`
for every 32-bit `x`, and the assignment to the `wl_fixed_t` field converts
the `double` back to `int32_t`, discarding the fraction. -/
def wl_fixed_to_double_stored (x : Int) : Int := Int.tdiv x 256

/-! ## Touch slot lookup (source lines 258-278) -/

/-- How the `for` loop of `get_touch_point` ends: by the early `return` at a
slot, or by running off the table with the local `invalid` (`none` for -1). -/
inductive touch_scan where
  | found (i : Fin 10)
  | finished (invalid : Option (Fin 10))
deriving DecidableEq, Repr

/-- The loop of `get_touch_point` over the remaining indices. -/
def get_touch_point_loop (points : Fin 10 → touch_point) (id : Int) :
    List (Fin 10) → Option (Fin 10) → touch_scan
  | [], invalid => .finished invalid
  | i :: rest, invalid =>
    if (points i).id = id then
      .found i
    else if invalid = none ∧ (points i).valid = false then
      get_touch_point_loop points id rest (some i)
    else
      get_touch_point_loop points id rest invalid

/-- A store `point->field = ...` through a pointer to slot `k` of the table. -/
def point_store (touch : touch_event) (k : Fin 10) (f : touch_point → touch_point) :
    touch_event :=
  { touch with points := Function.update touch.points k (f (touch.points k)) }

/-- The result is the index of the returned slot together with the table after
the call, or `none` for `NULL`. -/
def get_touch_point (touch : touch_event) (id : Int) : Option (Fin 10 × touch_event) :=
  match get_touch_point_loop touch.points id (List.finRange 10) none with
  | .found i => some (i, touch)
  | .finished none => none
  | .finished (some invalid) =>
    let t1 := point_store touch invalid (fun p => { p with valid := true })
    let t2 := point_store t1 invalid (fun p => { p with id := id })
    some (invalid, t2)

/-! ## Touch sub-event handlers (source lines 280-369) -/

def wl_touch_down (touch : touch_event) (serial time : Nat) (id x y : Int) : touch_event :=
  match get_touch_point touch id with
  | none => touch
  | some (k, t1) =>
    let t2 := point_store t1 k (fun p => { p with event_mask := p.event_mask ||| TOUCH_EVENT_UP })
    let t3 := point_store t2 k (fun p => { p with surface_x := wl_fixed_to_double_stored x })
    let t4 := point_store t3 k (fun p => { p with surface_y := wl_fixed_to_double_stored y })
    let t5 := { t4 with time := time }
    { t5 with serial := serial }

def wl_touch_up (touch : touch_event) (serial time : Nat) (id : Int) : touch_event :=
  match get_touch_point touch id with
  | none => touch
  | some (k, t1) =>
    point_store t1 k (fun p => { p with event_mask := p.event_mask ||| TOUCH_EVENT_UP })

def wl_touch_motion (touch : touch_event) (time : Nat) (id x y : Int) : touch_event :=
  match get_touch_point touch id with
  | none => touch
  | some (k, t1) =>
    let t2 :=
      point_store t1 k (fun p => { p with event_mask := p.event_mask ||| TOUCH_EVENT_MOTION })
    let t3 := point_store t2 k (fun p => { p with surface_x := x })
    let t4 := point_store t3 k (fun p => { p with surface_y := y })
    { t4 with time := time }

def wl_touch_cancel (touch : touch_event) : touch_event :=
  { touch with event_mask := touch.event_mask ||| TOUCH_EVENT_CANCEL }

def wl_touch_shape (touch : touch_event) (id major minor : Int) : touch_event :=
  match get_touch_point touch id with
  | none => touch
  | some (k, t1) =>
    let t2 :=
      point_store t1 k (fun p => { p with event_mask := p.event_mask ||| TOUCH_EVENT_SHAPE })
    let t3 := point_store t2 k (fun p => { p with major := major })
    point_store t3 k (fun p => { p with minor := minor })

def wl_touch_orientation (touch : touch_event) (id orientation : Int) : touch_event :=
  match get_touch_point touch id with
  | none => touch
  | some (k, t1) =>
    let t2 :=
      point_store t1 k
        (fun p => { p with event_mask := p.event_mask ||| TOUCH_EVENT_ORIENTATION })
    point_store t2 k (fun p => { p with orientation := orientation })

/-- The shape shared by the five per-contact handlers: look the slot up, return
at once on `NULL`, otherwise rewrite the slot by `f` and the device-wide
fields by `g`. -/
def touch_point_update (touch : touch_event) (id : Int) (f : touch_point → touch_point)
    (g : touch_event → touch_event) : touch_event :=
  match get_touch_point touch id with
  | none => touch
  | some (k, t1) => g (point_store t1 k f)

/-- The table after `get_touch_point` has claimed the free slot `k` for `id`. -/
def touch_claim (touch : touch_event) (k : Fin 10) (id : Int) : touch_event :=
  point_store touch k (fun p => { p with valid := true, id := id })

/-! ## Touch frame flush (source lines 371-418) -/

/-- The line `wl_touch_frame` prints for one valid slot; fixed-point values are
kept raw (the text shows them divided by 256). -/
structure touch_point_log where
  id : Int
  down : Option (Int × Int)
  up : Bool
  motion : Option (Int × Int)
  shape : Option (Int × Int)
  orientation : Option Int
deriving DecidableEq, Repr

def touch_point_record (point : touch_point) : touch_point_log :=
  { id := point.id
    down :=
      if mask_has point.event_mask TOUCH_EVENT_DOWN then
        some (point.surface_x, point.surface_y) else none
    up := mask_has point.event_mask TOUCH_EVENT_UP
    motion :=
      if mask_has point.event_mask TOUCH_EVENT_MOTION then
        some (point.surface_x, point.surface_y) else none
    shape :=
      if mask_has point.event_mask TOUCH_EVENT_SHAPE then
        some (point.major, point.minor) else none
    orientation :=
      if mask_has point.event_mask TOUCH_EVENT_ORIENTATION then
        some point.orientation else none }

/-- The loop of `wl_touch_frame` over the remaining indices, carrying the lines
printed so far and the table. -/
def wl_touch_frame_loop :
    List (Fin 10) → List touch_point_log × (Fin 10 → touch_point) →
      List touch_point_log × (Fin 10 → touch_point)
  | [], acc => acc
  | i :: rest, (log, points) =>
    if (points i).valid = false then
      wl_touch_frame_loop rest (log, points)
    else
      wl_touch_frame_loop rest
        (log ++ [touch_point_record (points i)],
          Function.update points i { points i with valid := false })

/-- The result is the printed frame (its time stamp and one line per valid
slot, in slot order) and the accumulator after the call. -/
def wl_touch_frame (touch : touch_event) : (Nat × List touch_point_log) × touch_event :=
  let r := wl_touch_frame_loop (List.finRange 10) ([], touch.points)
  ((touch.time, r.1), { touch with points := r.2 })

/-! ## Sequences of touch events -/

/-- A touch event as delivered by the compositor. -/
inductive touch_sub where
  | down (serial time : Nat) (id x y : Int)
  | up (serial time : Nat) (id : Int)
  | motion (time : Nat) (id x y : Int)
  | frame
  | cancel
  | shape (id major minor : Int)
  | orientation (id orientation : Int)
deriving DecidableEq, Repr

/-- Routing of an event to its handler, as `wl_touch_listener` does. -/
def touch_apply (t : touch_event) : touch_sub → touch_event
  | .down serial time id x y => wl_touch_down t serial time id x y
  | .up serial time id => wl_touch_up t serial time id
  | .motion time id x y => wl_touch_motion t time id x y
  | .frame => (wl_touch_frame t).2
  | .cancel => wl_touch_cancel t
  | .shape id major minor => wl_touch_shape t id major minor
  | .orientation id o => wl_touch_orientation t id o

/-- The handlers run one after another, each to completion, in arrival order. -/
def touch_run (t : touch_event) (evs : List touch_sub) : touch_event :=
  evs.foldl touch_apply t

/-- The contact identifier of a per-contact sub-event. -/
def touch_sub.contact : touch_sub → Option Int
  | .down _ _ id _ _ => some id
  | .up _ _ id => some id
  | .motion _ id _ _ => some id
  | .shape id _ _ => some id
  | .orientation id _ => some id
  | .frame => none
  | .cancel => none

def touch_sub.is_frame : touch_sub → Bool
  | .frame => true
  | _ => false

/-- What the handler of a per-contact sub-event stores into the slot that
`get_touch_point` returned (the identity for `frame` and `cancel`, which use
no slot). -/
def touch_sub.slot_write : touch_sub → touch_point → touch_point
  | .down _ _ _ x y, p =>
    { p with event_mask := p.event_mask ||| TOUCH_EVENT_UP,
             surface_x := wl_fixed_to_double_stored x,
             surface_y := wl_fixed_to_double_stored y }
  | .up _ _ _, p => { p with event_mask := p.event_mask ||| TOUCH_EVENT_UP }
  | .motion _ _ x y, p =>
    { p with event_mask := p.event_mask ||| TOUCH_EVENT_MOTION, surface_x := x, surface_y := y }
  | .shape _ major minor, p =>
    { p with event_mask := p.event_mask ||| TOUCH_EVENT_SHAPE, major := major, minor := minor }
  | .orientation _ o, p =>
    { p with event_mask := p.event_mask ||| TOUCH_EVENT_ORIENTATION, orientation := o }
  | .frame, p => p
  | .cancel, p => p

/-- What the handler of a per-contact sub-event stores into the device-wide
fields once it has a slot. -/
def touch_sub.device_write : touch_sub → touch_event → touch_event
  | .down serial time _ _ _, u => { u with time := time, serial := serial }
  | .motion time _ _ _, u => { u with time := time }
  | _, u => u

/-- The touch states the program can be in: those reached from the
zero-initialised table by a finite sequence of touch events. -/
def touch_reachable (t : touch_event) : Prop :=
  ∃ evs : List touch_sub, t = touch_run touch_event_zero evs

/-- No two distinct valid slots hold the same identifier. -/
def touch_ids_distinct (t : touch_event) : Prop :=
  ∀ i j : Fin 10, (t.points i).valid = true → (t.points j).valid = true →
    (t.points i).id = (t.points j).id → i = j

/-- Slots whose identifier is not the initial 0 hold pairwise different
identifiers and are valid. -/
def touch_nonzero_ids_settled (t : touch_event) : Prop :=
  (∀ i j : Fin 10, (t.points i).id = (t.points j).id → (t.points i).id ≠ 0 → i = j) ∧
  (∀ i : Fin 10, (t.points i).id ≠ 0 → (t.points i).valid = true)

/-- Slot `k` is valid and is the only slot that holds `id`. -/
def touch_slot_owns (t : touch_event) (k : Fin 10) (id : Int) : Prop :=
  (t.points k).valid = true ∧ (t.points k).id = id ∧ ∀ j, j ≠ k → (t.points j).id ≠ id

/-- Ten contacts, identifiers 1 to 10, put down on the zero-initialised table. -/
def touch_full_sample : touch_event :=
  touch_run touch_event_zero
    [.down 1 1 1 0 0, .down 2 2 2 0 0, .down 3 3 3 0 0, .down 4 4 4 0 0, .down 5 5 5 0 0,
     .down 6 6 6 0 0, .down 7 7 7 0 0, .down 8 8 8 0 0, .down 9 9 9 0 0, .down 10 10 10 0 0]

/-! ## Checkerboard painter (source lines 186-195) -/

/-- The colour `draw_frame` stores for pixel `(x, y)` with the integer `offset`;
`/` and `%` on C `int` truncate towards zero.  The sum stays far below `2^31`
for every buffer whose byte size fits an `int`, so it is not reduced. -/
def draw_frame_pixel (offset x y : Int) : Nat :=
  if Int.tmod ((x + offset) + Int.tdiv (y + offset) 8 * 8) 16 < 8 then
    0xFF666666
  else
    0xFFEEEEEE

/-- The pixel buffer `data` after the two loops of `draw_frame`, in index order
(`data[y * width + x]`); `state_offset` is `(int)state->offset`. -/
def draw_frame_data (width height : Nat) (state_offset : Int) : List Nat :=
  let offset := Int.tmod state_offset 8
  (List.range height).flatMap (fun (y : Nat) =>
    (List.range width).map (fun (x : Nat) => draw_frame_pixel offset (x : Int) (y : Int)))

/-! ## Surface, buffers and frame pacing (source lines 160-242, 781-804) -/

/-- The arithmetic on the C `float` field `offset`, kept abstract: the handlers
are defined for every choice of these operations. -/
structure float_ops (F : Type) where
  /-- The value `0` of the zero-initialised `client_state`. -/
  zero : F
  /-- The update `state->offset += elapsed / 1000.0 * 24`. -/
  advance : F → Int → F
  /-- The conversion `(int)state->offset`. -/
  to_int : F → Int

/-- Exact rational arithmetic in place of `float`, to run the handlers on
sample inputs. -/
def float_ops_exact : float_ops ℚ :=
  { zero := 0
    advance := fun offset elapsed => offset + (elapsed : ℚ) / 1000 * 24
    to_int := fun offset => Int.tdiv offset.num offset.den }

/-- The fields under `State` of `struct client_state` that the surface
handlers use. -/
structure client_state (F : Type) where
  offset : F
  last_frame : Nat
  width : Int
  height : Int
  closed : Bool

/-- The state `main` starts the dispatch loop with. -/
def client_state_main {F : Type} (ops : float_ops F) : client_state F :=
  { offset := ops.zero, last_frame := 0, width := 640, height := 480, closed := false }

def WL_SHM_FORMAT_XRGB8888 : Nat := 1
def INT32_MAX : Int := 2147483647

/-- A `wl_buffer` created by `wl_shm_pool_create_buffer`, with the pixels
painted into its pool. -/
structure wl_buffer where
  width : Int
  height : Int
  stride : Int
  format : Nat
  data : List Nat
deriving DecidableEq, Repr

/-- How the system calls of one `draw_frame` call turn out:
`allocate_shm_file` returns -1, or `mmap` returns `MAP_FAILED`, or both
succeed. -/
inductive shm_outcome where
  | allocate_fails
  | mmap_fails
  | mapped
deriving DecidableEq, Repr

/-- The result is `none` for `NULL`. -/
def draw_frame {F : Type} (ops : float_ops F) (env : shm_outcome) (state : client_state F) :
    Option wl_buffer :=
  let width := state.width
  let height := state.height
  let stride := width * 4
  match env with
  | .allocate_fails => none
  | .mmap_fails => none
  | .mapped =>
    some { width := width, height := height, stride := stride,
           format := WL_SHM_FORMAT_XRGB8888,
           data := draw_frame_data width.toNat height.toNat (ops.to_int state.offset) }

/-- A request the client sends to the compositor. -/
inductive client_request where
  | callback_destroy
  | surface_frame
  | surface_attach (buffer : Option wl_buffer) (x y : Int)
  | surface_damage_buffer (x y width height : Int)
  | surface_commit
  | xdg_surface_ack_configure (serial : Nat)
deriving DecidableEq, Repr

def xdg_toplevel_configure {F : Type} (state : client_state F) (width height : Int) :
    client_state F :=
  if width = 0 ∨ height = 0 then
    state
  else
    let s1 := { state with width := width }
    { s1 with height := height }

def xdg_toplevel_close {F : Type} (state : client_state F) : client_state F :=
  { state with closed := true }

/-- The result is the state after the handler and the requests it sent, in
order.  The static `uint32_t x = -100` reaches the `int32_t` parameter of
`wl_surface_attach` as -100. -/
def xdg_surface_configure {F : Type} (ops : float_ops F) (env : shm_outcome)
    (state : client_state F) (serial : Nat) : client_state F × List client_request :=
  let buffer := draw_frame ops env state
  (state, [.xdg_surface_ack_configure serial, .surface_attach buffer (-100) 0, .surface_commit])

/-- The value of `int elapsed = time - state->last_frame`: the difference of two
`uint32_t` modulo `2^32`, read as a signed 32-bit integer. -/
def frame_elapsed (time last_frame : Nat) : Int :=
  let d : Nat := (time + 2 ^ 32 - last_frame % 2 ^ 32) % 2 ^ 32
  if d < 2 ^ 31 then (d : Int) else (d : Int) - 2 ^ 32

/-- The result is the state after the handler and the requests it sent, in
order. -/
def wl_surface_frame_done {F : Type} (ops : float_ops F) (env : shm_outcome)
    (state : client_state F) (time : Nat) : client_state F × List client_request :=
  let s1 :=
    if state.last_frame ≠ 0 then
      { state with offset := ops.advance state.offset (frame_elapsed time state.last_frame) }
    else
      state
  let buffer := draw_frame ops env s1
  let s2 := { s1 with last_frame := time }
  (s2, [.callback_destroy, .surface_frame, .surface_attach buffer 0 0,
        .surface_damage_buffer 0 0 INT32_MAX INT32_MAX, .surface_commit])

/-- An event for one of the surface handlers, with the outcome of the system
calls the handler makes. -/
inductive client_ev where
  | toplevel_configure (width height : Int)
  | toplevel_close
  | surface_configure (serial : Nat) (env : shm_outcome)
  | frame_done (time : Nat) (env : shm_outcome)
deriving DecidableEq, Repr

/-- Routing of an event to its handler, as the listeners do. -/
def client_apply {F : Type} (ops : float_ops F) (state : client_state F) :
    client_ev → client_state F × List client_request
  | .toplevel_configure width height => (xdg_toplevel_configure state width height, [])
  | .toplevel_close => (xdg_toplevel_close state, [])
  | .surface_configure serial env => xdg_surface_configure ops env state serial
  | .frame_done time env => wl_surface_frame_done ops env state time

/-- The dispatch loop of `main`: `while (wl_display_dispatch(...))` runs the
handlers of the arriving events one after another and tests nothing but the
return value of the dispatch call.  The result is the final state and all
requests sent, in order. -/
def client_run {F : Type} (ops : float_ops F) (state : client_state F) :
    List client_ev → client_state F × List client_request
  | [] => (state, [])
  | e :: es =>
    let r := client_apply ops state e
    let rest := client_run ops r.1 es
    (rest.1, r.2 ++ rest.2)

/-! # Properties -/

/-! ## Pointer accumulator -/

theorem last_write_cons {α : Type} (w : pointer_sub → Option α) (e : pointer_sub)
    (es : List pointer_sub) (init : α) :
    last_write w (e :: es) init = last_write w es ((w e).getD init) := by
  unfold last_write
  rw [List.reverse_cons, List.findSome?_append]
  cases h : List.findSome? w es.reverse <;> cases hw : w e <;> simp [hw]

theorem axes_store_ok (s : pointer_event) (ax : Nat) (f : axis_slot → axis_slot) (h : ax < 2) :
    axes_store s ax f
      = .ok { s with axes := Function.update s.axes ⟨ax, h⟩ (f (s.axes ⟨ax, h⟩)) } := by
  simp [axes_store, h]

theorem axes_store_error (s : pointer_event) (ax : Nat) (f : axis_slot → axis_slot)
    (h : 2 ≤ ax) : axes_store s ax f = .error s := by
  have : ¬ ax < 2 := by omega
  simp [axes_store, this]

/-- The effect of one sub-event whose axis index, if any, is in range. -/
theorem pointer_apply_ok (s : pointer_event) (e : pointer_sub) (h : e.axis_in_range) :
    ∃ s1, pointer_apply s e = .ok s1 ∧
      s1.event_mask = s.event_mask ||| e.flag ∧
      (s1.surface_x, s1.surface_y) = (writes_position e).getD (s.surface_x, s.surface_y) ∧
      (s1.button, s1.state) = (writes_button e).getD (s.button, s.state) ∧
      s1.serial = (writes_serial e).getD s.serial ∧
      s1.time = (writes_time e).getD s.time ∧
      s1.axis_source = (writes_axis_source e).getD s.axis_source ∧
      ∀ i : Fin 2,
        (s1.axes i).value = (writes_axis_value i e).getD (s.axes i).value ∧
        (s1.axes i).discrete = (writes_axis_discrete i e).getD (s.axes i).discrete := by
  cases e with
  | enter serial x y =>
    exact ⟨_, rfl, rfl, rfl, rfl, rfl, rfl, rfl, fun i => ⟨rfl, rfl⟩⟩
  | leave serial =>
    exact ⟨_, rfl, rfl, rfl, rfl, rfl, rfl, rfl, fun i => ⟨rfl, rfl⟩⟩
  | motion time x y =>
    exact ⟨_, rfl, rfl, rfl, rfl, rfl, rfl, rfl, fun i => ⟨rfl, rfl⟩⟩
  | button serial time button state =>
    exact ⟨_, rfl, rfl, rfl, rfl, rfl, rfl, rfl, fun i => ⟨rfl, rfl⟩⟩
  | axis_source src =>
    exact ⟨_, rfl, rfl, rfl, rfl, rfl, rfl, rfl, fun i => ⟨rfl, rfl⟩⟩
  | axis time ax value =>
    have hax : ax < 2 := h ax rfl
    simp only [pointer_apply, wl_pointer_axis, axes_store_ok _ _ _ hax]
    refine ⟨_, rfl, rfl, rfl, rfl, rfl, rfl, rfl, ?_⟩
    · intro i
      by_cases hi : (⟨ax, hax⟩ : Fin 2) = i
      · subst hi
        simp [writes_axis_value, writes_axis_discrete]
      · have hne : ¬ ax = i.val := fun hh => hi (Fin.ext hh)
        have hne2 : i ≠ ⟨ax, hax⟩ := fun hh => hi hh.symm
        simp [writes_axis_value, writes_axis_discrete, hne, Function.update_noteq hne2]
  | axis_stop time ax =>
    have hax : ax < 2 := h ax rfl
    simp only [pointer_apply, wl_pointer_axis_stop, axes_store_ok _ _ _ hax]
    refine ⟨_, rfl, rfl, rfl, rfl, rfl, rfl, rfl, ?_⟩
    · intro i
      by_cases hi : (⟨ax, hax⟩ : Fin 2) = i
      · subst hi
        simp [writes_axis_value, writes_axis_discrete]
      · have hne2 : i ≠ ⟨ax, hax⟩ := fun hh => hi hh.symm
        simp [writes_axis_value, writes_axis_discrete, Function.update_noteq hne2]
  | axis_discrete ax discrete =>
    have hax : ax < 2 := h ax rfl
    simp only [pointer_apply, wl_pointer_axis_discrete, axes_store_ok _ _ _ hax]
    refine ⟨_, rfl, rfl, rfl, rfl, rfl, rfl, rfl, ?_⟩
    · intro i
      by_cases hi : (⟨ax, hax⟩ : Fin 2) = i
      · subst hi
        simp [writes_axis_value, writes_axis_discrete]
      · have hne : ¬ ax = i.val := fun hh => hi (Fin.ext hh)
        have hne2 : i ≠ ⟨ax, hax⟩ := fun hh => hi hh.symm
        simp [writes_axis_value, writes_axis_discrete, hne, Function.update_noteq hne2]

/-- C1: for every pointer state and every sequence of pointer sub-events without
a frame boundary whose axis indices are 0 or 1, all handlers complete, the
resulting `event_mask` is the initial mask OR-ed with the flag of every sub-event
(so no bit of the initial mask is cleared), and every field holds the value
carried by the last sub-event that writes it, or its initial value when no
sub-event of the sequence writes it. -/
theorem pointer_subevents_or_flags_last_write_wins (s : pointer_event)
    (evs : List pointer_sub) (h : ∀ e ∈ evs, e.axis_in_range) :
    ∃ s1, pointer_run s evs = .ok s1 ∧
      s1.event_mask = evs.foldl (fun m e => m ||| e.flag) s.event_mask ∧
      (∀ b, s.event_mask.testBit b = true → s1.event_mask.testBit b = true) ∧
      (s1.surface_x, s1.surface_y)
        = last_write writes_position evs (s.surface_x, s.surface_y) ∧
      (s1.button, s1.state) = last_write writes_button evs (s.button, s.state) ∧
      s1.serial = last_write writes_serial evs s.serial ∧
      s1.time = last_write writes_time evs s.time ∧
      s1.axis_source = last_write writes_axis_source evs s.axis_source ∧
      ∀ i : Fin 2,
        (s1.axes i).value = last_write (writes_axis_value i) evs (s.axes i).value ∧
        (s1.axes i).discrete
          = last_write (writes_axis_discrete i) evs (s.axes i).discrete := by
  induction evs generalizing s with
  | nil =>
    exact ⟨s, rfl, rfl, fun _ hb => hb, rfl, rfl, rfl, rfl, rfl, fun i => ⟨rfl, rfl⟩⟩
  | cons e es ih =>
    obtain ⟨s1, h1, hm, hp, hb, hs, ht, hsrc, hax⟩ :=
      pointer_apply_ok s e (h e (List.mem_cons_self e es))
    obtain ⟨s2, h2, hm2, hbit2, hp2, hb2, hs2, ht2, hsrc2, hax2⟩ :=
      ih s1 (fun e1 he1 => h e1 (List.mem_cons_of_mem e he1))
    refine ⟨s2, ?_, ?_, ?_, ?_, ?_, ?_, ?_, ?_, ?_⟩
    · simp [pointer_run, h1, h2]
    · rw [hm2, hm, List.foldl_cons]
    · intro b hbit
      apply hbit2
      rw [hm, Nat.testBit_or, hbit]
      rfl
    · rw [hp2, hp, last_write_cons]
    · rw [hb2, hb, last_write_cons]
    · rw [hs2, hs, last_write_cons]
    · rw [ht2, ht, last_write_cons]
    · rw [hsrc2, hsrc, last_write_cons]
    · intro i
      rw [(hax2 i).1, (hax2 i).2, (hax i).1, (hax i).2, last_write_cons, last_write_cons]
      exact ⟨rfl, rfl⟩

/-- C1, at a concrete sequence on the zeroed accumulator: enter, a vertical axis
value, motion, a horizontal discrete step, then a second vertical axis value. -/
theorem pointer_subevents_or_flags_last_write_wins_witness :
    ∃ s1,
      pointer_run pointer_event_zero
        [.enter 7 10 20, .axis 100 0 5, .motion 101 30 40, .axis_discrete 1 2, .axis 102 0 9]
        = .ok s1 ∧
      s1.event_mask = 149 ∧ (s1.surface_x, s1.surface_y) = (30, 40) ∧ s1.serial = 7 ∧
      s1.time = 102 ∧ (s1.axes 0).value = 9 ∧ (s1.axes 1).discrete = 2 := by
  obtain ⟨s1, h1, hm, _, hp, _, hs, ht, _, hax⟩ :=
    pointer_subevents_or_flags_last_write_wins pointer_event_zero
      [.enter 7 10 20, .axis 100 0 5, .motion 101 30 40, .axis_discrete 1 2, .axis 102 0 9]
      (by
        intro e he a ha
        simp only [List.mem_cons, List.mem_singleton, List.not_mem_nil, or_false] at he
        rcases he with rfl | rfl | rfl | rfl | rfl <;>
          simp [pointer_sub.axis_index] at ha <;> omega)
  exact ⟨s1, h1, hm.trans (by decide), hp.trans (by decide), hs.trans (by decide),
    ht.trans (by decide), (hax 0).1.trans (by decide), (hax 1).2.trans (by decide)⟩

/-- Within the table every index has a name. -/
theorem axis_source_name_in_table (n : Nat) (h : n < 4) :
    ∃ name, axis_source_name n = some name := by
  have h4 : n = 0 ∨ n = 1 ∨ n = 2 ∨ n = 3 := by omega
  rcases h4 with rfl | rfl | rfl | rfl <;> exact ⟨_, rfl⟩

/-- The axis loop of `wl_pointer_frame` completes when no iteration reads
outside the `axis_source` table. -/
theorem wl_pointer_frame_loop_ok (s : pointer_event) (l : List (Fin 2)) (log : List axis_log)
    (h : mask_has s.event_mask POINTER_EVENT_AXIS_SOURCE = true →
      (∃ i ∈ l, (s.axes i).valid = true) → s.axis_source < 4) :
    ∃ lines, wl_pointer_frame_loop s l log = .ok lines := by
  induction l generalizing log with
  | nil => exact ⟨log, rfl⟩
  | cons i rest ih =>
    have hrest : mask_has s.event_mask POINTER_EVENT_AXIS_SOURCE = true →
        (∃ j ∈ rest, (s.axes j).valid = true) → s.axis_source < 4 :=
      fun hm ⟨j, hj, hv⟩ => h hm ⟨j, List.mem_cons_of_mem i hj, hv⟩
    unfold wl_pointer_frame_loop
    by_cases hv : (s.axes i).valid = false
    · rw [if_pos hv]
      exact ih log hrest
    · rw [if_neg hv]
      have hv1 : (s.axes i).valid = true := by simpa using hv
      by_cases hm : mask_has s.event_mask POINTER_EVENT_AXIS_SOURCE = true
      · obtain ⟨name, hname⟩ :=
          axis_source_name_in_table s.axis_source (h hm ⟨i, List.mem_cons_self i rest, hv1⟩)
        simp only [hm, if_true, hname]
        exact ih _ hrest
      · simp only [hm]
        exact ih _ hrest

/-- C2, as the code has it: for every pointer state in which `wl_pointer_frame`
does not read outside its four-entry `axis_source` name table (that is,
`axis_source < 4` whenever `POINTER_EVENT_AXIS_SOURCE` is set and an axis slot
is valid), the handler completes and leaves the accumulator with
`event_mask = 0`, both axis slots invalid, and every other field (coordinates,
button, state, time, serial, axis values, discrete steps, axis source) zero. -/
theorem wl_pointer_frame_resets (s : pointer_event)
    (h : mask_has s.event_mask POINTER_EVENT_AXIS_SOURCE = true →
      (∃ i, (s.axes i).valid = true) → s.axis_source < 4) :
    ∃ log s1, wl_pointer_frame s = .ok (log, s1) ∧
      s1.event_mask = 0 ∧
      (∀ i : Fin 2, (s1.axes i).valid = false ∧ (s1.axes i).value = 0 ∧
        (s1.axes i).discrete = 0) ∧
      s1.surface_x = 0 ∧ s1.surface_y = 0 ∧ s1.button = 0 ∧ s1.state = 0 ∧
      s1.time = 0 ∧ s1.serial = 0 ∧ s1.axis_source = 0 := by
  obtain ⟨lines, hlines⟩ := wl_pointer_frame_loop_ok s (List.finRange 2) []
    (fun hm ⟨i, _, hv⟩ => h hm ⟨i, hv⟩)
  unfold wl_pointer_frame
  simp only [hlines]
  split_ifs <;>
    exact ⟨_, _, rfl, rfl, fun _ => ⟨rfl, rfl, rfl⟩, rfl, rfl, rfl, rfl, rfl, rfl, rfl⟩

/-- C2 of the amended form, at the accumulator after an enter, a finger axis
source and a vertical axis value. -/
theorem wl_pointer_frame_resets_witness :
    ∃ s, pointer_run pointer_event_zero [.enter 7 10 20, .axis_source 1, .axis 100 0 5]
        = .ok s ∧
      ∃ log s1, wl_pointer_frame s = .ok (log, s1) ∧
        s1.event_mask = 0 ∧
        (∀ i : Fin 2, (s1.axes i).valid = false ∧ (s1.axes i).value = 0 ∧
          (s1.axes i).discrete = 0) ∧
        s1.surface_x = 0 ∧ s1.surface_y = 0 ∧ s1.button = 0 ∧ s1.state = 0 ∧
        s1.time = 0 ∧ s1.serial = 0 ∧ s1.axis_source = 0 :=
  ⟨_, rfl, wl_pointer_frame_resets _ (fun _ _ => by decide)⟩

/-- C2 fails as stated: after an axis source 4 and a vertical axis value, which
the handlers store unchecked, `wl_pointer_frame` reads entry 4 of its
four-entry `axis_source` table before it reaches the `memset`, and the
accumulator is not reset. -/
theorem wl_pointer_frame_reads_outside_table :
    ∃ s, pointer_run pointer_event_zero [.axis_source 4, .axis 100 0 5] = .ok s ∧
      ∃ f, wl_pointer_frame s = .error f ∧
        f.event_mask = POINTER_EVENT_AXIS_SOURCE ||| POINTER_EVENT_AXIS ∧
        f.time = 100 ∧ f.axis_source = 4 ∧ (f.axes 0).valid = true ∧
        (f.axes 0).value = 5 :=
  ⟨_, rfl, _, rfl, rfl, rfl, rfl, rfl, rfl⟩

/-! ## Touch accumulator: slot lookup -/

theorem point_store_store (t : touch_event) (k : Fin 10) (f1 f2 : touch_point → touch_point) :
    point_store (point_store t k f1) k f2 = point_store t k (fun p => f2 (f1 p)) := by
  simp [point_store, Function.update_same, Function.update_idem]

/-- What the loop of `get_touch_point` has established when it ends. -/
theorem get_touch_point_loop_spec (points : Fin 10 → touch_point) (id : Int)
    (l : List (Fin 10)) (invalid : Option (Fin 10)) :
    match get_touch_point_loop points id l invalid with
    | .found i => i ∈ l ∧ (points i).id = id
    | .finished r =>
      (∀ i ∈ l, (points i).id ≠ id) ∧
      (r = none → invalid = none ∧ ∀ i ∈ l, (points i).valid = true) ∧
      (∀ k, r = some k → invalid = some k ∨ (k ∈ l ∧ (points k).valid = false)) := by
  induction l generalizing invalid with
  | nil => simp [get_touch_point_loop]
  | cons i rest ih =>
    unfold get_touch_point_loop
    by_cases hid : (points i).id = id
    · simp [hid]
    · by_cases hinv : invalid = none ∧ (points i).valid = false
      · rw [if_neg hid, if_pos hinv]
        have h := ih (some i)
        cases hr : get_touch_point_loop points id rest (some i) with
        | found j =>
          rw [hr] at h
          exact ⟨List.mem_cons_of_mem _ h.1, h.2⟩
        | finished r =>
          rw [hr] at h
          refine ⟨?_, ?_, ?_⟩
          · intro j hj
            rcases List.mem_cons.mp hj with rfl | hj
            · exact hid
            · exact h.1 j hj
          · intro hnone
            exact absurd (h.2.1 hnone).1 (by simp)
          · intro k hk
            rcases h.2.2 k hk with h1 | h1
            · have : i = k := by simpa using h1
              subst this
              exact Or.inr ⟨List.mem_cons_self _ _, hinv.2⟩
            · exact Or.inr ⟨List.mem_cons_of_mem _ h1.1, h1.2⟩
      · rw [if_neg hid, if_neg hinv]
        have h := ih invalid
        cases hr : get_touch_point_loop points id rest invalid with
        | found j =>
          rw [hr] at h
          exact ⟨List.mem_cons_of_mem _ h.1, h.2⟩
        | finished r =>
          rw [hr] at h
          refine ⟨?_, ?_, ?_⟩
          · intro j hj
            rcases List.mem_cons.mp hj with rfl | hj
            · exact hid
            · exact h.1 j hj
          · intro hnone
            have h2 := h.2.1 hnone
            refine ⟨h2.1, ?_⟩
            intro j hj
            rcases List.mem_cons.mp hj with rfl | hj
            · cases hv : (points j).valid
              · exact absurd ⟨h2.1, hv⟩ hinv
              · rfl
            · exact h2.2 j hj
          · intro k hk
            rcases h.2.2 k hk with h1 | h1
            · exact Or.inl h1
            · exact Or.inr ⟨List.mem_cons_of_mem _ h1.1, h1.2⟩

/-- The three ways `get_touch_point` can end: a slot holding `id` is returned
and the table is untouched; no slot holds `id` and every slot is valid, so
`NULL` is returned; or no slot holds `id` and a free slot is claimed. -/
theorem get_touch_point_cases (t : touch_event) (id : Int) :
    (∃ k, (t.points k).id = id ∧ get_touch_point t id = some (k, t)) ∨
    ((∀ i, (t.points i).id ≠ id) ∧ (∀ i, (t.points i).valid = true) ∧
      get_touch_point t id = none) ∨
    ((∀ i, (t.points i).id ≠ id) ∧
      ∃ k, (t.points k).valid = false ∧ get_touch_point t id = some (k, touch_claim t k id)) := by
  have h := get_touch_point_loop_spec t.points id (List.finRange 10) none
  unfold get_touch_point
  cases hr : get_touch_point_loop t.points id (List.finRange 10) none with
  | found i =>
    rw [hr] at h
    exact Or.inl ⟨i, h.2, rfl⟩
  | finished r =>
    rw [hr] at h
    cases r with
    | none =>
      exact Or.inr (Or.inl ⟨fun i => h.1 i (List.mem_finRange i),
        fun i => (h.2.1 rfl).2 i (List.mem_finRange i), rfl⟩)
    | some k =>
      refine Or.inr (Or.inr ⟨fun i => h.1 i (List.mem_finRange i), k, ?_, ?_⟩)
      · rcases h.2.2 k rfl with h1 | h1
        · exact absurd h1 (by simp)
        · exact h1.2
      · simp only [touch_claim, point_store_store]

/-! ## Touch accumulator: the per-contact handlers -/

/-- Every per-contact handler is an instance of `touch_point_update`. -/
theorem touch_apply_eq_update (t : touch_event) (e : touch_sub) (id : Int)
    (h : e.contact = some id) :
    touch_apply t e = touch_point_update t id e.slot_write e.device_write := by
  cases e with
  | frame => simp [touch_sub.contact] at h
  | cancel => simp [touch_sub.contact] at h
  | down serial time id1 x y =>
    obtain rfl : id1 = id := by simpa [touch_sub.contact] using h
    simp only [touch_apply, wl_touch_down, touch_point_update]
    cases get_touch_point t id1 with
    | none => rfl
    | some r => simp only [point_store_store]; rfl
  | up serial time id1 =>
    obtain rfl : id1 = id := by simpa [touch_sub.contact] using h
    simp only [touch_apply, wl_touch_up, touch_point_update]
    cases get_touch_point t id1 with
    | none => rfl
    | some r => rfl
  | motion time id1 x y =>
    obtain rfl : id1 = id := by simpa [touch_sub.contact] using h
    simp only [touch_apply, wl_touch_motion, touch_point_update]
    cases get_touch_point t id1 with
    | none => rfl
    | some r => simp only [point_store_store]; rfl
  | shape id1 major minor =>
    obtain rfl : id1 = id := by simpa [touch_sub.contact] using h
    simp only [touch_apply, wl_touch_shape, touch_point_update]
    cases get_touch_point t id1 with
    | none => rfl
    | some r => simp only [point_store_store]; rfl
  | orientation id1 o =>
    obtain rfl : id1 = id := by simpa [touch_sub.contact] using h
    simp only [touch_apply, wl_touch_orientation, touch_point_update]
    cases get_touch_point t id1 with
    | none => rfl
    | some r => simp only [point_store_store]; rfl

theorem device_write_points (e : touch_sub) (u : touch_event) :
    (e.device_write u).points = u.points := by
  cases e <;> rfl

/-- A slot write keeps the identifier and the validity of the slot and only
adds bits to its mask. -/
theorem slot_write_keeps (e : touch_sub) (p : touch_point) :
    (e.slot_write p).id = p.id ∧ (e.slot_write p).valid = p.valid ∧
      ∀ flag, mask_has p.event_mask flag = true →
        mask_has (e.slot_write p).event_mask flag = true := by
  have hmono : ∀ m g flag : Nat, mask_has m flag = true → mask_has (m ||| g) flag = true := by
    intro m g flag hm
    simp only [mask_has, bne_iff_ne, ne_eq] at hm ⊢
    obtain ⟨b, hb⟩ := Nat.ne_zero_implies_bit_true hm
    intro h0
    have h1 := congrArg (fun n => Nat.testBit n b) h0
    simp only [Nat.testBit_and, Nat.testBit_or, Nat.zero_testBit, Bool.and_eq_true] at hb h1
    simp [hb.1, hb.2] at h1
  cases e <;> refine ⟨rfl, rfl, ?_⟩ <;> intro flag hm <;>
    first
      | exact hm
      | exact hmono _ _ _ hm

/-- The effect of a per-contact sub-event for `id` on the table, by the way
`get_touch_point` ends. -/
theorem touch_apply_contact (t : touch_event) (e : touch_sub) (id : Int)
    (h : e.contact = some id) :
    (∃ k, get_touch_point t id = some (k, t) ∧ (t.points k).id = id ∧
      (touch_apply t e).points = Function.update t.points k (e.slot_write (t.points k))) ∨
    (get_touch_point t id = none ∧ (∀ i, (t.points i).id ≠ id) ∧
      (∀ i, (t.points i).valid = true) ∧ touch_apply t e = t) ∨
    (∃ k, get_touch_point t id = some (k, touch_claim t k id) ∧
      (∀ i, (t.points i).id ≠ id) ∧ (t.points k).valid = false ∧
      (touch_apply t e).points
        = Function.update t.points k (e.slot_write { t.points k with valid := true, id := id })) := by
  rw [touch_apply_eq_update t e id h]
  unfold touch_point_update
  rcases get_touch_point_cases t id with ⟨k, hk, hg⟩ | ⟨hno, hall, hg⟩ | ⟨hno, k, hk, hg⟩
  · refine Or.inl ⟨k, hg, hk, ?_⟩
    rw [hg]
    simp [device_write_points, point_store]
  · refine Or.inr (Or.inl ⟨hg, hno, hall, ?_⟩)
    rw [hg]
  · refine Or.inr (Or.inr ⟨k, hg, hno, hk, ?_⟩)
    rw [hg]
    simp [device_write_points, point_store, touch_claim, Function.update_same,
      Function.update_idem]

/-! ## Touch accumulator: the frame flush -/

theorem touch_point_invalidate_self (p : touch_point) (h : p.valid = false) :
    { p with valid := false } = p := by
  cases p
  simp_all

/-- The loop of `wl_touch_frame`, run over distinct indices, prints one line per
valid slot among them and invalidates exactly those slots. -/
theorem wl_touch_frame_loop_spec (l : List (Fin 10)) (hl : l.Nodup)
    (log : List touch_point_log) (points : Fin 10 → touch_point) :
    wl_touch_frame_loop l (log, points)
      = (log ++ (l.filter (fun i => (points i).valid)).map
            (fun i => touch_point_record (points i)),
          fun i => if i ∈ l then { points i with valid := false } else points i) := by
  induction l generalizing log points with
  | nil => simp [wl_touch_frame_loop]
  | cons i rest ih =>
    have hi : i ∉ rest := (List.nodup_cons.mp hl).1
    have hrest : rest.Nodup := (List.nodup_cons.mp hl).2
    unfold wl_touch_frame_loop
    by_cases hv : (points i).valid = false
    · rw [if_pos hv, ih hrest]
      refine Prod.ext ?_ ?_
      · simp [List.filter_cons, hv]
      · funext j
        by_cases hj : j = i
        · subst hj
          simp [hi, touch_point_invalidate_self _ hv]
        · simp [hj]
    · rw [if_neg hv, ih hrest]
      have hv1 : (points i).valid = true := by simpa using hv
      have hother : ∀ j ∈ rest,
          Function.update points i { points i with valid := false } j = points j := by
        intro j hj
        exact Function.update_noteq (fun (hji : j = i) => hi (hji ▸ hj)) _ _
      refine Prod.ext ?_ ?_
      · simp only [List.filter_cons, hv1, if_true, List.map_cons, List.append_assoc,
          List.singleton_append]
        congr 2
        rw [List.filter_congr (fun j hj => by rw [hother j hj])]
        exact List.map_congr_left (fun j hj => by rw [hother j (List.mem_filter.mp hj).1])
      · funext j
        by_cases hj : j = i
        · subst hj
          simp [hi]
        · by_cases hjr : j ∈ rest
          · simp [hj, hjr, Function.update_noteq hj]
          · simp [hj, hjr, Function.update_noteq hj]

/-- The lines printed by `wl_touch_frame`: one per valid slot, in slot order. -/
theorem wl_touch_frame_log (t : touch_event) :
    (wl_touch_frame t).1
      = (t.time, ((List.finRange 10).filter (fun i => (t.points i).valid)).map
          (fun i => touch_point_record (t.points i))) := by
  simp [wl_touch_frame, wl_touch_frame_loop_spec _ (List.nodup_finRange 10)]

/-- The table left by `wl_touch_frame`: every slot as before, with `valid`
false. -/
theorem wl_touch_frame_points (t : touch_event) (i : Fin 10) :
    (wl_touch_frame t).2.points i = { t.points i with valid := false } := by
  simp [wl_touch_frame, wl_touch_frame_loop_spec _ (List.nodup_finRange 10)]

/-! ## Touch accumulator: capacity -/

/-- C5: in every touch state in which all ten slots are valid and none holds the
identifier `k`, `get_touch_point` returns no slot for `k`, and each of the five
per-contact handlers called with `k` returns the state unchanged (every slot
and the device-wide time, serial and event mask). -/
theorem touch_table_full_drops (t : touch_event) (k : Int)
    (hfull : ∀ i, (t.points i).valid = true) (hk : ∀ i, (t.points i).id ≠ k) :
    get_touch_point t k = none ∧
    (∀ serial time x y, wl_touch_down t serial time k x y = t) ∧
    (∀ serial time, wl_touch_up t serial time k = t) ∧
    (∀ time x y, wl_touch_motion t time k x y = t) ∧
    (∀ major minor, wl_touch_shape t k major minor = t) ∧
    (∀ o, wl_touch_orientation t k o = t) := by
  have hnone : get_touch_point t k = none := by
    rcases get_touch_point_cases t k with ⟨i, hi, _⟩ | ⟨_, _, hg⟩ | ⟨_, i, hi, _⟩
    · exact absurd hi (hk i)
    · exact hg
    · rw [hfull i] at hi
      exact absurd hi (by simp)
  refine ⟨hnone, ?_, ?_, ?_, ?_, ?_⟩
  · intro serial time x y
    simp [wl_touch_down, hnone]
  · intro serial time
    simp [wl_touch_up, hnone]
  · intro time x y
    simp [wl_touch_motion, hnone]
  · intro major minor
    simp [wl_touch_shape, hnone]
  · intro o
    simp [wl_touch_orientation, hnone]

/-- C5, at the table filled by ten contacts 1..10 and an eleventh identifier. -/
theorem touch_table_full_drops_witness :
    get_touch_point touch_full_sample 11 = none ∧
    (∀ serial time x y, wl_touch_down touch_full_sample serial time 11 x y
      = touch_full_sample) ∧
    (∀ serial time, wl_touch_up touch_full_sample serial time 11 = touch_full_sample) ∧
    (∀ time x y, wl_touch_motion touch_full_sample time 11 x y = touch_full_sample) ∧
    (∀ major minor, wl_touch_shape touch_full_sample 11 major minor = touch_full_sample) ∧
    (∀ o, wl_touch_orientation touch_full_sample 11 o = touch_full_sample) :=
  touch_table_full_drops touch_full_sample 11 (by decide) (by decide)

/-! ## Touch accumulator: what the frame flush frees -/

/-- C6, as the code has it: after `wl_touch_frame` every slot is free, whether
or not its flags included `TOUCH_EVENT_UP`, every slot keeps its identifier,
and a slot that was free before is unchanged. -/
theorem wl_touch_frame_frees_every_slot (t : touch_event) (i : Fin 10) :
    ((wl_touch_frame t).2.points i).valid = false ∧
    ((wl_touch_frame t).2.points i).id = (t.points i).id ∧
    ((t.points i).valid = false → (wl_touch_frame t).2.points i = t.points i) := by
  rw [wl_touch_frame_points]
  exact ⟨rfl, rfl, fun h => touch_point_invalidate_self _ h⟩

/-- C6 fails as stated: a contact that has only moved (slot 0, identifier 5,
flags `TOUCH_EVENT_MOTION`, no `TOUCH_EVENT_UP`) is valid before the frame and
is free after it, with its flags still set. -/
theorem wl_touch_frame_frees_slot_without_up :
    ((touch_run touch_event_zero [.motion 1 5 3 4]).points 0).valid = true ∧
    ((touch_run touch_event_zero [.motion 1 5 3 4]).points 0).id = 5 ∧
    mask_has ((touch_run touch_event_zero [.motion 1 5 3 4]).points 0).event_mask
      TOUCH_EVENT_UP = false ∧
    ((wl_touch_frame (touch_run touch_event_zero [.motion 1 5 3 4])).2.points 0).valid
      = false ∧
    ((wl_touch_frame (touch_run touch_event_zero [.motion 1 5 3 4])).2.points 0).event_mask
      = TOUCH_EVENT_MOTION := by
  decide

/-! ## Touch accumulator: one slot per live identifier -/

theorem touch_run_append (t : touch_event) (evs : List touch_sub) (e : touch_sub) :
    touch_run t (evs ++ [e]) = touch_apply (touch_run t evs) e := by
  simp [touch_run, List.foldl_append]

theorem touch_run_cons (t : touch_event) (e : touch_sub) (evs : List touch_sub) :
    touch_run t (e :: evs) = touch_run (touch_apply t e) evs := rfl

/-- An event that is neither a frame nor for a contact is the cancel event,
which leaves the table alone. -/
theorem touch_apply_no_contact (t : touch_event) (e : touch_sub) (hc : e.contact = none)
    (hf : e.is_frame = false) : (touch_apply t e).points = t.points := by
  cases e with
  | cancel => rfl
  | frame => exact absurd hf (by simp [touch_sub.is_frame])
  | down => exact absurd hc (by simp [touch_sub.contact])
  | up => exact absurd hc (by simp [touch_sub.contact])
  | motion => exact absurd hc (by simp [touch_sub.contact])
  | shape => exact absurd hc (by simp [touch_sub.contact])
  | orientation => exact absurd hc (by simp [touch_sub.contact])

theorem touch_ids_distinct_step (t : touch_event) (e : touch_sub)
    (h : touch_ids_distinct t) : touch_ids_distinct (touch_apply t e) := by
  cases hc : e.contact with
  | none =>
    cases hf : e.is_frame with
    | false =>
      intro i j
      rw [touch_apply_no_contact t e hc hf]
      exact h i j
    | true =>
      have he : e = .frame := by
        cases e <;> simp [touch_sub.is_frame] at hf
        rfl
      subst he
      intro i j hi
      simp only [touch_apply, wl_touch_frame_points] at hi
      exact absurd hi (by simp)
  | some id =>
    rcases touch_apply_contact t e id hc with ⟨k, _, _, hp⟩ | ⟨_, _, _, hp⟩ | ⟨k, _, hno, hk, hp⟩
    · have hsame : ∀ j, ((touch_apply t e).points j).id = (t.points j).id ∧
          ((touch_apply t e).points j).valid = (t.points j).valid := by
        intro j
        rw [hp]
        by_cases hj : j = k
        · subst hj
          rw [Function.update_same]
          exact ⟨(slot_write_keeps e _).1, (slot_write_keeps e _).2.1⟩
        · rw [Function.update_noteq hj]
          exact ⟨rfl, rfl⟩
      intro i j hi hj hij
      rw [(hsame i).2] at hi
      rw [(hsame j).2] at hj
      rw [(hsame i).1, (hsame j).1] at hij
      exact h i j hi hj hij
    · rw [hp]
      exact h
    · have hat : ((touch_apply t e).points k).id = id := by
        rw [hp, Function.update_same]
        exact (slot_write_keeps e _).1
      have hoff : ∀ j, j ≠ k → (touch_apply t e).points j = t.points j := by
        intro j hj
        rw [hp, Function.update_noteq hj]
      intro i j hi hj hij
      by_cases hik : i = k
      · by_cases hjk : j = k
        · rw [hik, hjk]
        · subst hik
          rw [hat, hoff j hjk] at hij
          exact absurd hij.symm (hno j)
      · by_cases hjk : j = k
        · subst hjk
          rw [hat, hoff i hik] at hij
          exact absurd hij (hno i)
        · rw [hoff i hik] at hi hij
          rw [hoff j hjk] at hj hij
          exact h i j hi hj hij

theorem touch_ids_distinct_run (t : touch_event) (evs : List touch_sub)
    (h : touch_ids_distinct t) : touch_ids_distinct (touch_run t evs) := by
  induction evs generalizing t with
  | nil => exact h
  | cons e es ih =>
    rw [touch_run_cons]
    exact ih _ (touch_ids_distinct_step t e h)

/-- C10: in every touch state reached from the zero-initialised table by a
finite sequence of down, up, motion, shape, orientation, cancel and frame
events with arbitrary identifiers, no two distinct valid slots hold the same
identifier. -/
theorem touch_reachable_ids_distinct (evs : List touch_sub) :
    touch_ids_distinct (touch_run touch_event_zero evs) := by
  apply touch_ids_distinct_run
  intro i j hi
  simp [touch_event_zero, touch_point_zero] at hi

/-! ## Touch accumulator: an "up" contact in the frame emission -/

theorem mask_has_or_self (m flag : Nat) (hflag : flag ≠ 0) :
    mask_has (m ||| flag) flag = true := by
  simp only [mask_has, bne_iff_ne, ne_eq]
  obtain ⟨b, hb⟩ := Nat.ne_zero_implies_bit_true hflag
  intro h0
  have h1 := congrArg (fun n => Nat.testBit n b) h0
  simp [Nat.testBit_and, Nat.testBit_or, hb] at h1

/-- A sub-event other than a frame leaves every valid slot valid, with its
identifier, and clears none of its flags. -/
theorem touch_apply_keeps_valid_slot (t : touch_event) (e : touch_sub)
    (hf : e.is_frame = false) (k : Fin 10) (hv : (t.points k).valid = true) :
    ((touch_apply t e).points k).valid = true ∧
    ((touch_apply t e).points k).id = (t.points k).id ∧
    ∀ flag, mask_has (t.points k).event_mask flag = true →
      mask_has ((touch_apply t e).points k).event_mask flag = true := by
  cases hc : e.contact with
  | none =>
    rw [touch_apply_no_contact t e hc hf]
    exact ⟨hv, rfl, fun _ h => h⟩
  | some id =>
    rcases touch_apply_contact t e id hc with ⟨j, _, _, hp⟩ | ⟨_, _, _, hp⟩ | ⟨j, _, _, hj, hp⟩
    · rw [hp]
      by_cases hkj : k = j
      · subst hkj
        rw [Function.update_same]
        have h := slot_write_keeps e (t.points k)
        exact ⟨h.2.1.trans hv, h.1, h.2.2⟩
      · rw [Function.update_noteq hkj]
        exact ⟨hv, rfl, fun _ h => h⟩
    · rw [hp]
      exact ⟨hv, rfl, fun _ h => h⟩
    · have hkj : k ≠ j := by
        intro h
        rw [h, hj] at hv
        exact absurd hv (by simp)
      rw [hp, Function.update_noteq hkj]
      exact ⟨hv, rfl, fun _ h => h⟩

theorem touch_run_keeps_valid_slot (t : touch_event) (evs : List touch_sub)
    (hf : ∀ e ∈ evs, e.is_frame = false) (k : Fin 10) (hv : (t.points k).valid = true) :
    ((touch_run t evs).points k).valid = true ∧
    ((touch_run t evs).points k).id = (t.points k).id ∧
    ∀ flag, mask_has (t.points k).event_mask flag = true →
      mask_has ((touch_run t evs).points k).event_mask flag = true := by
  induction evs generalizing t with
  | nil => exact ⟨hv, rfl, fun _ h => h⟩
  | cons e es ih =>
    rw [touch_run_cons]
    have h1 := touch_apply_keeps_valid_slot t e (hf e (List.mem_cons_self e es)) k hv
    have h2 := ih (touch_apply t e) (fun e1 he1 => hf e1 (List.mem_cons_of_mem e he1)) h1.1
    exact ⟨h2.1, h2.2.1.trans h1.2.1, fun flag h => h2.2.2 flag (h1.2.2 flag h)⟩

/-- Sub-events for other identifiers never make a slot holding `id` valid. -/
theorem touch_apply_other_keeps_absent (t : touch_event) (e : touch_sub) (id : Int)
    (hf : e.is_frame = false) (hc : e.contact ≠ some id)
    (h : ∀ k, (t.points k).valid = true → (t.points k).id ≠ id) :
    ∀ k, ((touch_apply t e).points k).valid = true → ((touch_apply t e).points k).id ≠ id := by
  cases hc1 : e.contact with
  | none =>
    rw [touch_apply_no_contact t e hc1 hf]
    exact h
  | some a =>
    have ha : a ≠ id := fun haid => hc (by rw [hc1, haid])
    rcases touch_apply_contact t e a hc1 with ⟨j, _, _, hp⟩ | ⟨_, _, _, hp⟩ | ⟨j, _, _, _, hp⟩
    · intro k
      rw [hp]
      by_cases hkj : k = j
      · subst hkj
        rw [Function.update_same, (slot_write_keeps e _).1, (slot_write_keeps e _).2.1]
        exact h k
      · rw [Function.update_noteq hkj]
        exact h k
    · rw [hp]
      exact h
    · intro k
      rw [hp]
      by_cases hkj : k = j
      · subst hkj
        rw [Function.update_same, (slot_write_keeps e _).1]
        exact fun _ => ha
      · rw [Function.update_noteq hkj]
        exact h k

theorem touch_run_other_keeps_absent (t : touch_event) (evs : List touch_sub) (id : Int)
    (hevs : ∀ e ∈ evs, e.is_frame = false ∧ e.contact ≠ some id)
    (h : ∀ k, (t.points k).valid = true → (t.points k).id ≠ id) :
    ∀ k, ((touch_run t evs).points k).valid = true → ((touch_run t evs).points k).id ≠ id := by
  induction evs generalizing t with
  | nil => exact h
  | cons e es ih =>
    rw [touch_run_cons]
    have he := hevs e (List.mem_cons_self e es)
    exact ih _ (fun e1 he1 => hevs e1 (List.mem_cons_of_mem e he1))
      (touch_apply_other_keeps_absent t e id he.1 he.2 h)

/-- C4, as the code has it: whenever the slot `get_touch_point` returns for `id`
is valid when returned (a free slot just claimed for `id`, or a valid slot that
already holds `id`), then after `wl_touch_up` for `id` and any further
sub-events up to the frame boundary, the lines emitted by `wl_touch_frame`
contain one for `id` with the up flag; and the lines emitted by the following
`wl_touch_frame`, with no sub-event for `id` in between, contain none for
`id`. -/
theorem touch_up_emitted_then_absent (t : touch_event) (id : Int) (serial time : Nat)
    (k : Fin 10) (t1 : touch_event)
    (hget : get_touch_point t id = some (k, t1)) (hvalid : (t1.points k).valid = true)
    (mid next : List touch_sub) (hmid : ∀ e ∈ mid, e.is_frame = false)
    (hnext : ∀ e ∈ next, e.is_frame = false ∧ e.contact ≠ some id) :
    (∃ r ∈ (wl_touch_frame (touch_run (wl_touch_up t serial time id) mid)).1.2,
      r.id = id ∧ r.up = true) ∧
    (∀ r ∈ (wl_touch_frame (touch_run
        (wl_touch_frame (touch_run (wl_touch_up t serial time id) mid)).2 next)).1.2,
      r.id ≠ id) := by
  constructor
  · have hup : ((wl_touch_up t serial time id).points k).valid = true ∧
        ((wl_touch_up t serial time id).points k).id = id ∧
        mask_has ((wl_touch_up t serial time id).points k).event_mask TOUCH_EVENT_UP = true := by
      have hflag : TOUCH_EVENT_UP ≠ 0 := by decide
      rcases touch_apply_contact t (.up serial time id) id rfl with
        ⟨j, hg, hid, hp⟩ | ⟨hg, _, _, _⟩ | ⟨j, hg, _, _, hp⟩
      · rw [hget] at hg
        obtain ⟨rfl, rfl⟩ : k = j ∧ t1 = t := by simpa using hg
        have hp1 : (wl_touch_up t1 serial time id).points
            = Function.update t1.points k
                ((touch_sub.up serial time id).slot_write (t1.points k)) := hp
        rw [hp1, Function.update_same]
        exact ⟨hvalid, hid, mask_has_or_self _ _ hflag⟩
      · rw [hget] at hg
        exact absurd hg (by simp)
      · rw [hget] at hg
        obtain ⟨rfl, -⟩ : k = j ∧ t1 = touch_claim t j id := by simpa using hg
        have hp1 : (wl_touch_up t serial time id).points
            = Function.update t.points k
                ((touch_sub.up serial time id).slot_write
                  { t.points k with valid := true, id := id }) := hp
        rw [hp1, Function.update_same]
        exact ⟨rfl, rfl, mask_has_or_self _ _ hflag⟩
    have hrun := touch_run_keeps_valid_slot (wl_touch_up t serial time id) mid hmid k hup.1
    refine ⟨touch_point_record ((touch_run (wl_touch_up t serial time id) mid).points k),
      ?_, ?_, ?_⟩
    · rw [wl_touch_frame_log]
      exact List.mem_map.mpr ⟨k, List.mem_filter.mpr ⟨List.mem_finRange k, hrun.1⟩, rfl⟩
    · exact hrun.2.1.trans hup.2.1
    · exact hrun.2.2 _ hup.2.2
  · intro r hr
    rw [wl_touch_frame_log] at hr
    obtain ⟨i, hi, rfl⟩ := List.mem_map.mp hr
    have hvi := (List.mem_filter.mp hi).2
    refine touch_run_other_keeps_absent _ next id hnext ?_ i hvi
    intro j hj
    rw [wl_touch_frame_points] at hj
    exact absurd hj (by simp)

/-- C4 of the amended form, at the zero-initialised table and identifier 5. -/
theorem touch_up_emitted_then_absent_witness :
    (∃ r ∈ (wl_touch_frame (touch_run (wl_touch_up touch_event_zero 1 2 5)
        [.motion 3 5 7 8, .shape 6 1 1])).1.2, r.id = 5 ∧ r.up = true) ∧
    (∀ r ∈ (wl_touch_frame (touch_run
        (wl_touch_frame (touch_run (wl_touch_up touch_event_zero 1 2 5)
          [.motion 3 5 7 8, .shape 6 1 1])).2 [.motion 4 6 1 1, .cancel])).1.2,
      r.id ≠ 5) :=
  touch_up_emitted_then_absent touch_event_zero 5 1 2 0
    (point_store (point_store touch_event_zero 0 (fun p => { p with valid := true })) 0
      (fun p => { p with id := 5 })) rfl rfl
    [.motion 3 5 7 8, .shape 6 1 1] [.motion 4 6 1 1, .cancel] (by decide) (by decide)

/-- C4 fails as stated.  From the zero-initialised table an up for identifier 0
is followed by a frame that emits nothing; after a contact 5 has been through
one frame, an up for 5 is followed by a frame that emits nothing; and with all
ten slots taken an up for an eleventh identifier is followed by a frame that
emits no line for it. -/
theorem touch_up_not_emitted :
    (wl_touch_frame (wl_touch_up touch_event_zero 1 1 0)).1.2 = [] ∧
    (wl_touch_frame (wl_touch_up
      (touch_run touch_event_zero [.down 1 1 5 256 512, .frame]) 2 2 5)).1.2 = [] ∧
    (∀ r ∈ (wl_touch_frame (wl_touch_up touch_full_sample 3 3 11)).1.2, r.id ≠ 11) := by
  decide

/-! ## Touch accumulator: identifier-stable slots within a frame -/

theorem touch_nonzero_ids_settled_step (t : touch_event) (e : touch_sub)
    (hf : e.is_frame = false) (h : touch_nonzero_ids_settled t) :
    touch_nonzero_ids_settled (touch_apply t e) := by
  cases hc : e.contact with
  | none =>
    unfold touch_nonzero_ids_settled
    rw [touch_apply_no_contact t e hc hf]
    exact h
  | some a =>
    rcases touch_apply_contact t e a hc with ⟨k, _, _, hp⟩ | ⟨_, _, _, hp⟩ | ⟨k, _, hno, _, hp⟩
    · have hsame : ∀ j, ((touch_apply t e).points j).id = (t.points j).id ∧
          ((touch_apply t e).points j).valid = (t.points j).valid := by
        intro j
        rw [hp]
        by_cases hj : j = k
        · subst hj
          rw [Function.update_same]
          exact ⟨(slot_write_keeps e _).1, (slot_write_keeps e _).2.1⟩
        · rw [Function.update_noteq hj]
          exact ⟨rfl, rfl⟩
      constructor
      · intro i j hij hi
        rw [(hsame i).1] at hij hi
        rw [(hsame j).1] at hij
        exact h.1 i j hij hi
      · intro i hi
        rw [(hsame i).1] at hi
        rw [(hsame i).2]
        exact h.2 i hi
    · rw [hp]
      exact h
    · have hat : ((touch_apply t e).points k).id = a ∧
          ((touch_apply t e).points k).valid = true := by
        rw [hp, Function.update_same]
        exact ⟨(slot_write_keeps e _).1, (slot_write_keeps e _).2.1⟩
      have hoff : ∀ j, j ≠ k → (touch_apply t e).points j = t.points j := by
        intro j hj
        rw [hp, Function.update_noteq hj]
      constructor
      · intro i j hij hi
        by_cases hik : i = k
        · by_cases hjk : j = k
          · rw [hik, hjk]
          · subst hik
            rw [hat.1, hoff j hjk] at hij
            exact absurd hij.symm (hno j)
        · by_cases hjk : j = k
          · subst hjk
            rw [hat.1, hoff i hik] at hij
            exact absurd hij (hno i)
          · rw [hoff i hik] at hij hi
            rw [hoff j hjk] at hij
            exact h.1 i j hij hi
      · intro i hi
        by_cases hik : i = k
        · rw [hik]
          exact hat.2
        · rw [hoff i hik] at hi ⊢
          exact h.2 i hi

theorem touch_nonzero_ids_settled_run (evs : List touch_sub)
    (hf : ∀ e ∈ evs, e.is_frame = false) :
    touch_nonzero_ids_settled (touch_run touch_event_zero evs) := by
  induction evs using List.reverseRecOn with
  | nil =>
    constructor
    · intro i j _ hi
      exact absurd rfl hi
    · intro i hi
      exact absurd rfl hi
  | append_singleton es e ih =>
    rw [touch_run_append]
    exact touch_nonzero_ids_settled_step _ e (hf e (by simp))
      (ih (fun e1 he1 => hf e1 (by simp [he1])))

/-- A sub-event for another identifier, other than a frame, does not write to a
valid slot that alone holds `id`, and the slot keeps owning `id`. -/
theorem touch_slot_owns_step (t : touch_event) (e : touch_sub) (k : Fin 10) (id : Int)
    (hf : e.is_frame = false) (hc : e.contact ≠ some id) (h : touch_slot_owns t k id) :
    touch_slot_owns (touch_apply t e) k id ∧ (touch_apply t e).points k = t.points k := by
  cases hc1 : e.contact with
  | none =>
    unfold touch_slot_owns
    rw [touch_apply_no_contact t e hc1 hf]
    exact ⟨h, rfl⟩
  | some a =>
    have ha : a ≠ id := fun haid => hc (by rw [hc1, haid])
    rcases touch_apply_contact t e a hc1 with
      ⟨j, _, hj, hp⟩ | ⟨_, _, _, hp⟩ | ⟨j, _, _, hj, hp⟩
    · have hjk : j ≠ k := by
        intro hjk
        rw [hjk, h.2.1] at hj
        exact ha hj.symm
      have hk : (touch_apply t e).points k = t.points k := by
        rw [hp, Function.update_noteq (Ne.symm hjk)]
      refine ⟨⟨?_, ?_, ?_⟩, hk⟩
      · rw [hk]; exact h.1
      · rw [hk]; exact h.2.1
      · intro i hik
        rw [hp]
        by_cases hij : i = j
        · subst hij
          rw [Function.update_same, (slot_write_keeps e _).1]
          exact h.2.2 i hik
        · rw [Function.update_noteq hij]
          exact h.2.2 i hik
    · rw [hp]
      exact ⟨h, rfl⟩
    · have hjk : j ≠ k := by
        intro hjk
        rw [hjk, h.1] at hj
        exact absurd hj (by simp)
      have hk : (touch_apply t e).points k = t.points k := by
        rw [hp, Function.update_noteq (Ne.symm hjk)]
      refine ⟨⟨?_, ?_, ?_⟩, hk⟩
      · rw [hk]; exact h.1
      · rw [hk]; exact h.2.1
      · intro i hik
        rw [hp]
        by_cases hij : i = j
        · subst hij
          rw [Function.update_same, (slot_write_keeps e _).1]
          exact ha
        · rw [Function.update_noteq hij]
          exact h.2.2 i hik

theorem touch_slot_owns_run (t : touch_event) (evs : List touch_sub) (k : Fin 10) (id : Int)
    (hevs : ∀ e ∈ evs, e.is_frame = false ∧ e.contact ≠ some id)
    (h : touch_slot_owns t k id) :
    touch_slot_owns (touch_run t evs) k id ∧ (touch_run t evs).points k = t.points k := by
  induction evs generalizing t with
  | nil => exact ⟨h, rfl⟩
  | cons e es ih =>
    rw [touch_run_cons]
    have he := hevs e (List.mem_cons_self e es)
    have h1 := touch_slot_owns_step t e k id he.1 he.2 h
    have h2 := ih _ (fun e1 he1 => hevs e1 (List.mem_cons_of_mem e he1)) h1.1
    exact ⟨h2.1, h2.2.trans h1.2⟩

/-- The slot that owns `id` is the one `get_touch_point` returns for `id`, and
the lookup leaves the table as it is. -/
theorem get_touch_point_of_owns (t : touch_event) (k : Fin 10) (id : Int)
    (h : touch_slot_owns t k id) : get_touch_point t id = some (k, t) := by
  rcases get_touch_point_cases t id with ⟨j, hj, hg⟩ | ⟨hno, _, _⟩ | ⟨hno, _⟩
  · by_cases hjk : j = k
    · rw [hg, hjk]
    · exact absurd hj (h.2.2 j hjk)
  · exact absurd h.2.1 (hno k)
  · exact absurd h.2.1 (hno k)

/-- C3, as the code has it.  Start from the zero-initialised table, run any
sub-events without a frame boundary, and let `id` be different from 0 with
`get_touch_point` returning slot `k` for `id` at the first motion (the table is
not exhausted).  Then the first motion is stored in slot `k`; after any
sub-events for other identifiers, again without a frame boundary,
`get_touch_point` returns the same slot `k` for `id` and leaves the table as it
is, slot `k` still holds `id` and is exactly as the first motion left it, and
the second motion is stored in slot `k` on top of the first. -/
theorem touch_motion_same_slot (id : Int) (hid : id ≠ 0) (pre mid : List touch_sub)
    (hpre : ∀ e ∈ pre, e.is_frame = false)
    (hmid : ∀ e ∈ mid, e.is_frame = false ∧ e.contact ≠ some id)
    (time1 time2 : Nat) (x1 y1 x2 y2 : Int) (k : Fin 10) (t1 : touch_event)
    (hget : get_touch_point (touch_run touch_event_zero pre) id = some (k, t1)) :
    ((wl_touch_motion (touch_run touch_event_zero pre) time1 id x1 y1).points k).id = id ∧
    ((wl_touch_motion (touch_run touch_event_zero pre) time1 id x1 y1).points k).surface_x
      = x1 ∧
    ((wl_touch_motion (touch_run touch_event_zero pre) time1 id x1 y1).points k).surface_y
      = y1 ∧
    get_touch_point
        (touch_run (wl_touch_motion (touch_run touch_event_zero pre) time1 id x1 y1) mid) id
      = some (k,
          touch_run (wl_touch_motion (touch_run touch_event_zero pre) time1 id x1 y1) mid) ∧
    ((touch_run (wl_touch_motion (touch_run touch_event_zero pre) time1 id x1 y1)
        mid).points k).id = id ∧
    (touch_run (wl_touch_motion (touch_run touch_event_zero pre) time1 id x1 y1) mid).points k
      = (wl_touch_motion (touch_run touch_event_zero pre) time1 id x1 y1).points k ∧
    (wl_touch_motion
        (touch_run (wl_touch_motion (touch_run touch_event_zero pre) time1 id x1 y1) mid)
        time2 id x2 y2).points k
      = { (wl_touch_motion (touch_run touch_event_zero pre) time1 id x1 y1).points k with
          event_mask :=
            ((wl_touch_motion (touch_run touch_event_zero pre) time1 id x1 y1).points
              k).event_mask ||| TOUCH_EVENT_MOTION,
          surface_x := x2, surface_y := y2 } := by
  have hinv := touch_nonzero_ids_settled_run pre hpre
  generalize touch_run touch_event_zero pre = s1 at hget hinv ⊢
  -- the first motion
  have hfirst : touch_slot_owns (wl_touch_motion s1 time1 id x1 y1) k id ∧
      ((wl_touch_motion s1 time1 id x1 y1).points k).surface_x = x1 ∧
      ((wl_touch_motion s1 time1 id x1 y1).points k).surface_y = y1 := by
    rcases touch_apply_contact s1 (.motion time1 id x1 y1) id rfl with
      ⟨j, hg, hj, hp⟩ | ⟨hg, _, _, _⟩ | ⟨j, hg, hno, _, hp⟩
    · rw [hget] at hg
      obtain ⟨rfl, -⟩ : k = j ∧ t1 = s1 := by simpa using hg
      have hp1 : (wl_touch_motion s1 time1 id x1 y1).points
          = Function.update s1.points k
              ((touch_sub.motion time1 id x1 y1).slot_write (s1.points k)) := hp
      refine ⟨⟨?_, ?_, ?_⟩, ?_, ?_⟩
      · rw [hp1, Function.update_same]
        exact hinv.2 k (by rw [hj]; exact hid)
      · rw [hp1, Function.update_same]
        exact hj
      · intro i hik
        rw [hp1, Function.update_noteq hik]
        intro hi
        exact hik (hinv.1 i k (hi.trans hj.symm) (by rw [hi]; exact hid))
      · rw [hp1, Function.update_same]
        rfl
      · rw [hp1, Function.update_same]
        rfl
    · rw [hget] at hg
      exact absurd hg (by simp)
    · rw [hget] at hg
      obtain ⟨rfl, -⟩ : k = j ∧ t1 = touch_claim s1 j id := by simpa using hg
      have hp1 : (wl_touch_motion s1 time1 id x1 y1).points
          = Function.update s1.points k
              ((touch_sub.motion time1 id x1 y1).slot_write
                { s1.points k with valid := true, id := id }) := hp
      refine ⟨⟨?_, ?_, ?_⟩, ?_, ?_⟩
      · rw [hp1, Function.update_same]
        rfl
      · rw [hp1, Function.update_same]
        rfl
      · intro i hik
        rw [hp1, Function.update_noteq hik]
        exact hno i
      · rw [hp1, Function.update_same]
        rfl
      · rw [hp1, Function.update_same]
        rfl
  -- the sub-events for other identifiers
  have hrun := touch_slot_owns_run (wl_touch_motion s1 time1 id x1 y1) mid k id hmid hfirst.1
  generalize wl_touch_motion s1 time1 id x1 y1 = s2 at hfirst hrun ⊢
  have hsecond := get_touch_point_of_owns _ k id hrun.1
  refine ⟨hfirst.1.2.1, hfirst.2.1, hfirst.2.2, hsecond, hrun.1.2.1, hrun.2, ?_⟩
  -- the second motion
  rw [← hrun.2]
  generalize touch_run s2 mid = s3 at hsecond ⊢
  simp only [wl_touch_motion, hsecond, point_store, Function.update_same]

/-- C3 of the amended form, at identifier 5 arriving after contact 7. -/
theorem touch_motion_same_slot_witness :
    (get_touch_point
        (touch_run (wl_touch_motion (touch_run touch_event_zero [.down 1 1 7 0 0]) 3 5 10 20)
          [.motion 4 7 3 3, .up 2 5 8, .cancel]) 5).map Prod.fst = some 1 ∧
    ((wl_touch_motion
        (touch_run (wl_touch_motion (touch_run touch_event_zero [.down 1 1 7 0 0]) 3 5 10 20)
          [.motion 4 7 3 3, .up 2 5 8, .cancel])
        6 5 30 40).points 1).surface_x = 30 := by
  have h := touch_motion_same_slot 5 (by decide) [.down 1 1 7 0 0]
    [.motion 4 7 3 3, .up 2 5 8, .cancel] (by decide) (by decide) 3 6 10 20 30 40 1
    (point_store
      (point_store (touch_run touch_event_zero [.down 1 1 7 0 0]) 1
        (fun p => { p with valid := true })) 1
      (fun p => { p with id := 5 })) rfl
  exact ⟨by rw [h.2.2.2.1]; rfl, by rw [h.2.2.2.2.2.2]⟩

/-- C3 fails as stated.  For identifier 0 the first motion is stored in slot 0,
a motion for identifier 5 then takes slot 0 over, and the second motion for 0
is stored in slot 1; and with all ten slots taken, no slot is returned for an
eleventh identifier at either motion. -/
theorem touch_motion_slot_not_stable :
    (get_touch_point touch_event_zero 0).map Prod.fst = some 0 ∧
    ((touch_run touch_event_zero [.motion 1 0 5 5]).points 0).surface_x = 5 ∧
    (get_touch_point
      (touch_run touch_event_zero [.motion 1 0 5 5, .motion 2 5 7 7]) 0).map Prod.fst
      = some 1 ∧
    ((touch_run touch_event_zero [.motion 1 0 5 5, .motion 2 5 7 7]).points 0).id = 5 ∧
    ((touch_run touch_event_zero [.motion 1 0 5 5, .motion 2 5 7 7]).points 0).surface_x = 7 ∧
    (get_touch_point touch_full_sample 11).map Prod.fst = none ∧
    (get_touch_point (wl_touch_motion touch_full_sample 1 11 5 5) 11).map Prod.fst = none := by
  decide

/-! ## Pointer accumulator: axis index out of range -/

/-- C7, as the code has it: for an axis identifier of 2 or more none of
`wl_pointer_axis`, `wl_pointer_axis_stop`, `wl_pointer_axis_discrete` checks the
index.  Each first ORs its flag into `event_mask` (and the first two overwrite
`time`), then reaches the store through `axes[axis]` outside the two-slot
table; up to that store both axis slots and all other fields are as before. -/
theorem pointer_axis_out_of_range (s : pointer_event) (time axis : Nat)
    (value discrete : Int) (h : 2 ≤ axis) :
    wl_pointer_axis s time axis value
      = .error { s with event_mask := s.event_mask ||| POINTER_EVENT_AXIS, time := time } ∧
    wl_pointer_axis_stop s time axis
      = .error { s with event_mask := s.event_mask ||| POINTER_EVENT_AXIS_STOP,
                        time := time } ∧
    wl_pointer_axis_discrete s axis discrete
      = .error { s with event_mask := s.event_mask ||| POINTER_EVENT_AXIS_DISCRETE } := by
  refine ⟨?_, ?_, ?_⟩
  · simp only [wl_pointer_axis, axes_store_error _ _ _ h]
    rfl
  · simp only [wl_pointer_axis_stop, axes_store_error _ _ _ h]
  · simp only [wl_pointer_axis_discrete, axes_store_error _ _ _ h]
    rfl

/-- C7 of the amended form, at axis identifier 2 on the zeroed accumulator. -/
theorem pointer_axis_out_of_range_witness :
    wl_pointer_axis pointer_event_zero 5 2 7
      = .error { pointer_event_zero with
          event_mask := pointer_event_zero.event_mask ||| POINTER_EVENT_AXIS, time := 5 } ∧
    wl_pointer_axis_stop pointer_event_zero 5 2
      = .error { pointer_event_zero with
          event_mask := pointer_event_zero.event_mask ||| POINTER_EVENT_AXIS_STOP,
          time := 5 } ∧
    wl_pointer_axis_discrete pointer_event_zero 2 3
      = .error { pointer_event_zero with
          event_mask := pointer_event_zero.event_mask ||| POINTER_EVENT_AXIS_DISCRETE } :=
  pointer_axis_out_of_range pointer_event_zero 5 2 7 3 (by decide)

/-- C7 fails as stated: called with axis identifier 2 on the zeroed accumulator
(mask 0, time 0), each handler has already changed the accumulator when it
reaches the out-of-range slot. -/
theorem pointer_axis_out_of_range_not_rejected :
    pointer_event_zero.event_mask = 0 ∧ pointer_event_zero.time = 0 ∧
    (∃ s1, wl_pointer_axis pointer_event_zero 5 2 7 = .error s1 ∧
      s1.event_mask = 16 ∧ s1.time = 5) ∧
    (∃ s1, wl_pointer_axis_stop pointer_event_zero 5 2 = .error s1 ∧
      s1.event_mask = 64 ∧ s1.time = 5) ∧
    (∃ s1, wl_pointer_axis_discrete pointer_event_zero 2 3 = .error s1 ∧
      s1.event_mask = 128) :=
  ⟨rfl, rfl, ⟨_, rfl, rfl, rfl⟩, ⟨_, rfl, rfl, rfl⟩, ⟨_, rfl, rfl⟩⟩

/-! ## Checkerboard painter -/

theorem draw_frame_row_length (width : Nat) (offset : Int) (y : Nat) :
    ((List.range width).map (fun x : Nat => draw_frame_pixel offset x y)).length = width := by
  simp

theorem draw_frame_rows_length (width : Nat) (offset : Int) (height : Nat) :
    ((List.range height).flatMap (fun y : Nat =>
      (List.range width).map (fun x : Nat => draw_frame_pixel offset x y))).length
      = height * width := by
  induction height with
  | zero => simp
  | succ n ih =>
    rw [List.range_succ, List.flatMap_append, List.length_append, ih, List.flatMap_singleton,
      draw_frame_row_length]
    ring

/-- The buffer holds at index `y * width + x` the colour computed for `(x, y)`. -/
theorem draw_frame_data_get (width height : Nat) (state_offset : Int) (x y : Nat)
    (hx : x < width) (hy : y < height) :
    (draw_frame_data width height state_offset)[y * width + x]?
      = some (draw_frame_pixel (Int.tmod state_offset 8) x y) := by
  unfold draw_frame_data
  simp only
  generalize Int.tmod state_offset 8 = offset
  induction height with
  | zero => omega
  | succ n ih =>
    rw [List.range_succ, List.flatMap_append, List.flatMap_singleton]
    by_cases hyn : y < n
    · rw [List.getElem?_append_left, ih hyn]
      rw [draw_frame_rows_length]
      calc y * width + x < y * width + width := by omega
        _ = (y + 1) * width := by ring
        _ ≤ n * width := Nat.mul_le_mul_right width hyn
    · have hy1 : y = n := by omega
      subst hy1
      rw [List.getElem?_append_right (by rw [draw_frame_rows_length]; omega),
        draw_frame_rows_length, Nat.add_sub_cancel_left, List.getElem?_map,
        List.getElem?_range hx]
      rfl

/-- The classification of a pixel with non-negative coordinates and offset, in
terms of ordinary division and remainder. -/
theorem draw_frame_pixel_nonneg (offset : Int) (x y : Nat) (ho : 0 ≤ offset) :
    draw_frame_pixel offset x y
      = if ((x : Int) + offset + ((y : Int) + offset) / 8 * 8) % 16 < 8 then 0xFF666666
        else 0xFFEEEEEE := by
  unfold draw_frame_pixel
  have h1 : Int.tdiv ((y : Int) + offset) 8 = ((y : Int) + offset) / 8 :=
    Int.tdiv_eq_ediv (by omega) (by omega)
  rw [h1, Int.tmod_eq_emod (by omega) (by omega)]

/-- C8: with the integer offset `(int)offset % 8` of a non-negative scroll
offset, for all pixel coordinates inside the buffer together with their
shifted counterparts, pixel `(x+8, y+8)` has the colour of pixel `(x, y)` and
pixel `(x+8, y)` has the other one of the two colours; and for offset 0 and a
16 by 16 buffer, pixels `(0,0)` and `(8,8)` are `0xFF666666` and pixel `(8,0)`
is `0xFFEEEEEE`. -/
theorem draw_frame_checkerboard (width height : Nat) (state_offset : Int)
    (ho : 0 ≤ state_offset) (x y : Nat) (hx : x + 8 < width) (hy : y + 8 < height) :
    (draw_frame_data width height state_offset)[(y + 8) * width + (x + 8)]?
      = (draw_frame_data width height state_offset)[y * width + x]? ∧
    (((draw_frame_data width height state_offset)[y * width + x]? = some 0xFF666666 ∧
        (draw_frame_data width height state_offset)[y * width + (x + 8)]? = some 0xFFEEEEEE) ∨
      ((draw_frame_data width height state_offset)[y * width + x]? = some 0xFFEEEEEE ∧
        (draw_frame_data width height state_offset)[y * width + (x + 8)]?
          = some 0xFF666666)) ∧
    (draw_frame_data 16 16 0)[0 * 16 + 0]? = some 0xFF666666 ∧
    (draw_frame_data 16 16 0)[8 * 16 + 8]? = some 0xFF666666 ∧
    (draw_frame_data 16 16 0)[0 * 16 + 8]? = some 0xFFEEEEEE := by
  have hoff : 0 ≤ Int.tmod state_offset 8 := by
    rw [Int.tmod_eq_emod ho (by omega)]
    omega
  refine ⟨?_, ?_,
    (draw_frame_data_get 16 16 0 0 0 (by decide) (by decide)).trans (by decide),
    (draw_frame_data_get 16 16 0 8 8 (by decide) (by decide)).trans (by decide),
    (draw_frame_data_get 16 16 0 8 0 (by decide) (by decide)).trans (by decide)⟩
  · rw [draw_frame_data_get _ _ _ _ _ (by omega) (by omega),
      draw_frame_data_get _ _ _ _ _ (by omega) (by omega),
      draw_frame_pixel_nonneg _ _ _ hoff, draw_frame_pixel_nonneg _ _ _ hoff]
    push_cast
    split_ifs <;> first | rfl | omega
  · rw [draw_frame_data_get _ _ _ _ _ (by omega) (by omega),
      draw_frame_data_get _ _ _ _ _ (by omega) (by omega),
      draw_frame_pixel_nonneg _ _ _ hoff, draw_frame_pixel_nonneg _ _ _ hoff]
    push_cast
    split_ifs
    · omega
    · exact Or.inl ⟨rfl, rfl⟩
    · exact Or.inr ⟨rfl, rfl⟩
    · omega

/-- C8, at the 640 by 480 surface of `main`, scroll offset 13, pixel (100, 50). -/
theorem draw_frame_checkerboard_witness :
    (draw_frame_data 640 480 13)[(50 + 8) * 640 + (100 + 8)]?
      = (draw_frame_data 640 480 13)[50 * 640 + 100]? ∧
    (((draw_frame_data 640 480 13)[50 * 640 + 100]? = some 0xFF666666 ∧
        (draw_frame_data 640 480 13)[50 * 640 + (100 + 8)]? = some 0xFFEEEEEE) ∨
      ((draw_frame_data 640 480 13)[50 * 640 + 100]? = some 0xFFEEEEEE ∧
        (draw_frame_data 640 480 13)[50 * 640 + (100 + 8)]? = some 0xFF666666)) ∧
    (draw_frame_data 16 16 0)[0 * 16 + 0]? = some 0xFF666666 ∧
    (draw_frame_data 16 16 0)[8 * 16 + 8]? = some 0xFF666666 ∧
    (draw_frame_data 16 16 0)[0 * 16 + 8]? = some 0xFFEEEEEE :=
  draw_frame_checkerboard 640 480 13 (by decide) 100 50 (by decide) (by decide)

/-! ## Touch accumulator: the flag set by a down -/

/-- C11, evaluated on the code: on the zero-initialised table a down for
identifier 5 is given slot 0, and after `wl_touch_down` the flags of that slot
are exactly `TOUCH_EVENT_UP`; they do not contain `TOUCH_EVENT_DOWN`, and the
following frame reports the contact as "up" and not as "down". -/
theorem wl_touch_down_sets_up_flag :
    (get_touch_point touch_event_zero 5).map Prod.fst = some 0 ∧
    ((wl_touch_down touch_event_zero 1 1 5 256 512).points 0).event_mask = TOUCH_EVENT_UP ∧
    mask_has ((wl_touch_down touch_event_zero 1 1 5 256 512).points 0).event_mask
      TOUCH_EVENT_DOWN = false ∧
    mask_has ((wl_touch_down touch_event_zero 1 1 5 256 512).points 0).event_mask
      TOUCH_EVENT_UP = true ∧
    (wl_touch_frame (wl_touch_down touch_event_zero 1 1 5 256 512)).1.2
      = [{ id := 5, down := none, up := true, motion := none, shape := none,
           orientation := none }] := by
  decide

/-! ## Touch accumulator: sub-events for an identifier no slot holds -/

/-- C12, as the code has it: for an identifier that no slot holds, the handlers
of up, motion, shape and orientation ignore the sub-event only when all ten
slots are valid; when a free slot exists they claim one for the identifier
(marking it valid and storing the identifier), OR their flag into it and store
their fields, and every other slot is left as it was. -/
theorem touch_unknown_contact_claims_slot (t : touch_event) (id : Int)
    (serial time : Nat) (x y major minor o : Int)
    (hno : ∀ i, (t.points i).id ≠ id) :
    ((∀ i, (t.points i).valid = true) →
      wl_touch_up t serial time id = t ∧ wl_touch_motion t time id x y = t ∧
      wl_touch_shape t id major minor = t ∧ wl_touch_orientation t id o = t) ∧
    ((∃ i, (t.points i).valid = false) →
      ∃ k, (t.points k).valid = false ∧
        (wl_touch_up t serial time id).points
          = Function.update t.points k
              { t.points k with
                valid := true
                id := id
                event_mask := (t.points k).event_mask ||| TOUCH_EVENT_UP } ∧
        (wl_touch_motion t time id x y).points
          = Function.update t.points k
              { t.points k with
                valid := true
                id := id
                event_mask := (t.points k).event_mask ||| TOUCH_EVENT_MOTION
                surface_x := x
                surface_y := y } ∧
        (wl_touch_shape t id major minor).points
          = Function.update t.points k
              { t.points k with
                valid := true
                id := id
                event_mask := (t.points k).event_mask ||| TOUCH_EVENT_SHAPE
                major := major
                minor := minor } ∧
        (wl_touch_orientation t id o).points
          = Function.update t.points k
              { t.points k with
                valid := true
                id := id
                event_mask := (t.points k).event_mask ||| TOUCH_EVENT_ORIENTATION
                orientation := o }) := by
  rcases get_touch_point_cases t id with ⟨k, hk, _⟩ | ⟨_, hall, hg⟩ | ⟨_, k, hk, hg⟩
  · exact absurd hk (hno k)
  · refine ⟨fun _ => ?_, fun ⟨i, hi⟩ => ?_⟩
    · simp [wl_touch_up, wl_touch_motion, wl_touch_shape, wl_touch_orientation, hg]
    · rw [hall i] at hi
      exact absurd hi (by simp)
  · refine ⟨fun hall => ?_, fun _ => ⟨k, hk, ?_, ?_, ?_, ?_⟩⟩
    · rw [hall k] at hk
      exact absurd hk (by simp)
    · simp [wl_touch_up, hg, touch_claim, point_store, Function.update_same,
        Function.update_idem]
    · simp [wl_touch_motion, hg, touch_claim, point_store, Function.update_same,
        Function.update_idem]
    · simp [wl_touch_shape, hg, touch_claim, point_store, Function.update_same,
        Function.update_idem]
    · simp [wl_touch_orientation, hg, touch_claim, point_store, Function.update_same,
        Function.update_idem]

/-- C12 of the amended form, at a motion for identifier 5 on the
zero-initialised table. -/
theorem touch_unknown_contact_claims_slot_witness :
    ∃ k, (touch_event_zero.points k).valid = false ∧
      (wl_touch_motion touch_event_zero 2 5 3 4).points
        = Function.update touch_event_zero.points k
            { touch_event_zero.points k with
              valid := true
              id := 5
              event_mask := (touch_event_zero.points k).event_mask ||| TOUCH_EVENT_MOTION
              surface_x := 3
              surface_y := 4 } := by
  obtain ⟨k, hk, _, hm, _, _⟩ :=
    (touch_unknown_contact_claims_slot touch_event_zero 5 1 2 3 4 5 6 7 (by decide)).2
      ⟨0, rfl⟩
  exact ⟨k, hk, hm⟩

/-- C12 fails as stated: on the zero-initialised table no valid slot holds
identifier 5, yet an up, a motion, a shape or an orientation for 5 each claim
slot 0 for it, mark it valid and set their flag. -/
theorem touch_unknown_contact_not_ignored :
    (∀ i, (touch_event_zero.points i).valid = false) ∧
    ((wl_touch_up touch_event_zero 1 2 5).points 0).valid = true ∧
    ((wl_touch_up touch_event_zero 1 2 5).points 0).id = 5 ∧
    ((wl_touch_up touch_event_zero 1 2 5).points 0).event_mask = TOUCH_EVENT_UP ∧
    ((wl_touch_motion touch_event_zero 2 5 3 4).points 0).valid = true ∧
    ((wl_touch_motion touch_event_zero 2 5 3 4).points 0).id = 5 ∧
    ((wl_touch_motion touch_event_zero 2 5 3 4).points 0).event_mask = TOUCH_EVENT_MOTION ∧
    ((wl_touch_shape touch_event_zero 5 6 7).points 0).valid = true ∧
    ((wl_touch_shape touch_event_zero 5 6 7).points 0).id = 5 ∧
    ((wl_touch_orientation touch_event_zero 5 8).points 0).valid = true ∧
    ((wl_touch_orientation touch_event_zero 5 8).points 0).id = 5 := by
  decide

/-! ## Touch accumulator: flags of a newly claimed slot -/

/-- C15, evaluated on the code: contact 5 moves to (3, 4) and the frame ends;
slot 0 is then free but still holds identifier 5 and the flag
`TOUCH_EVENT_MOTION`.  No slot holds identifier 7, `get_touch_point` claims
slot 0 for it, and the flags of the returned slot are not empty.  After a
shape for 7 the next frame reports for contact 7 a motion to (3, 4), which
contact 7 never made. -/
theorem touch_claimed_slot_keeps_old_flags :
    ((touch_run touch_event_zero [.motion 1 5 3 4, .frame]).points 0).valid = false ∧
    (∀ i, ((touch_run touch_event_zero [.motion 1 5 3 4, .frame]).points i).id ≠ 7) ∧
    (get_touch_point (touch_run touch_event_zero [.motion 1 5 3 4, .frame]) 7).map
      (fun r => (r.1, (r.2.points r.1).valid, (r.2.points r.1).id, (r.2.points r.1).event_mask))
      = some (0, true, 7, TOUCH_EVENT_MOTION) ∧
    (wl_touch_frame
      (touch_run touch_event_zero [.motion 1 5 3 4, .frame, .shape 7 10 20])).1.2
      = [{ id := 7, down := none, up := false, motion := some (3, 4),
           shape := some (10, 20), orientation := none }] := by
  decide

/-! ## Frame pacing: a frame whose buffer could not be made -/

/-- C13, as the code has it: whenever `draw_frame` fails to produce a buffer
(`allocate_shm_file` returns -1 or the mapping fails, so it returns `NULL`),
`wl_surface_frame_done` still requests the next frame callback and still issues
attach, with the `NULL` buffer, damage and commit on the surface. -/
theorem wl_surface_frame_done_failed_draw {F : Type} (ops : float_ops F) (env : shm_outcome)
    (state : client_state F) (time : Nat)
    (hfail : env = .allocate_fails ∨ env = .mmap_fails) :
    (∀ s : client_state F, draw_frame ops env s = none) ∧
    (wl_surface_frame_done ops env state time).2
      = [.callback_destroy, .surface_frame, .surface_attach none 0 0,
         .surface_damage_buffer 0 0 INT32_MAX INT32_MAX, .surface_commit] := by
  have hnone : ∀ s : client_state F, draw_frame ops env s = none := by
    intro s
    rcases hfail with h | h <;> subst h <;> rfl
  refine ⟨hnone, ?_⟩
  simp only [wl_surface_frame_done, hnone]

/-- C13 of the amended form, at the state of `main`, a callback at time 1500
and a failing `allocate_shm_file`. -/
theorem wl_surface_frame_done_failed_draw_witness :
    (∀ s : client_state ℚ, draw_frame float_ops_exact .allocate_fails s = none) ∧
    (wl_surface_frame_done float_ops_exact .allocate_fails
        (client_state_main float_ops_exact) 1500).2
      = [.callback_destroy, .surface_frame, .surface_attach none 0 0,
         .surface_damage_buffer 0 0 INT32_MAX INT32_MAX, .surface_commit] :=
  wl_surface_frame_done_failed_draw float_ops_exact .allocate_fails
    (client_state_main float_ops_exact) 1500 (Or.inl rfl)

/-- C13 fails as stated: with a failing `mmap`, `draw_frame` returns `NULL` and
the requests of `wl_surface_frame_done` for that callback contain an attach, a
damage and a commit. -/
theorem wl_surface_frame_done_failed_draw_not_skipped :
    draw_frame float_ops_exact .mmap_fails (client_state_main float_ops_exact) = none ∧
    client_request.surface_attach none 0 0
      ∈ (wl_surface_frame_done float_ops_exact .mmap_fails
          (client_state_main float_ops_exact) 1500).2 ∧
    client_request.surface_damage_buffer 0 0 INT32_MAX INT32_MAX
      ∈ (wl_surface_frame_done float_ops_exact .mmap_fails
          (client_state_main float_ops_exact) 1500).2 ∧
    client_request.surface_commit
      ∈ (wl_surface_frame_done float_ops_exact .mmap_fails
          (client_state_main float_ops_exact) 1500).2 := by
  decide

/-! ## Frame pacing: after the close notification -/

/-- C14, evaluated on the code: after a configure to 2 by 2 pixels and the close
notification, `closed` is true, and the next frame callback still requests
another frame callback and attaches and commits a freshly painted buffer. -/
theorem wl_surface_frame_done_after_close :
    (client_run float_ops_exact (client_state_main float_ops_exact)
      [.toplevel_configure 2 2, .toplevel_close]).1.closed = true ∧
    (client_run float_ops_exact (client_state_main float_ops_exact)
      [.toplevel_configure 2 2, .toplevel_close]).2 = [] ∧
    (client_run float_ops_exact (client_state_main float_ops_exact)
      [.toplevel_configure 2 2, .toplevel_close, .frame_done 1500 .mapped]).2
      = [.callback_destroy, .surface_frame,
         .surface_attach
           (some { width := 2, height := 2, stride := 8, format := WL_SHM_FORMAT_XRGB8888,
                   data := [0xFF666666, 0xFF666666, 0xFF666666, 0xFF666666] }) 0 0,
         .surface_damage_buffer 0 0 INT32_MAX INT32_MAX, .surface_commit] := by
  decide

/-! ## Frame pacing: the scroll offset -/

/-- For every arithmetic on `offset`: after `wl_surface_frame_done`, `last_frame`
is `time`, and the offset is unchanged when `last_frame` was 0 and advanced by
the signed 32-bit difference otherwise. -/
theorem wl_surface_frame_done_state {F : Type} (ops : float_ops F) (env : shm_outcome)
    (state : client_state F) (time : Nat) :
    (wl_surface_frame_done ops env state time).1.last_frame = time ∧
    (state.last_frame = 0 →
      (wl_surface_frame_done ops env state time).1.offset = state.offset) ∧
    (state.last_frame ≠ 0 →
      (wl_surface_frame_done ops env state time).1.offset
        = ops.advance state.offset (frame_elapsed time state.last_frame)) := by
  refine ⟨?_, ?_, ?_⟩
  · simp only [wl_surface_frame_done]
  · intro h
    simp [wl_surface_frame_done, h]
  · intro h
    simp [wl_surface_frame_done, h]

end WaylandInput
